import Mathlib

/-!
# caLINEdar — verification of the `CaLINEdarDateInput` controller

Shallow embedding of `src/caLINEdarDateInput.js` (the date-input controller of
the caLINEdar date-picker widget) together with a model of the pieces of the
JavaScript host platform the controller relies on (the `Date` built-in, i.e.
the proleptic Gregorian calendar in a fixed-offset local time zone, JSON
(de)serialization of the widget's own values, and JavaScript object/array
aliasing for the month-grid cache).

The pluggable calendar system (`CaLINEdarCalender`) is an external collaborator
of the controller; it is modelled as a structure of abstract functions
(`Calendar` below) matching the contract described in the spec, and concrete
toy instances are used for witnesses and counterexamples.

Machine integers: JavaScript numbers used by this code are integer-valued
throughout (unix times, years, list indices); they are modelled as `Int`.
`Int` division `/` and `%` (Euclidean, which agrees with floor division for
the positive divisors used here) model JavaScript `Math.floor(x / k)` and the
floor divisions of the ECMAScript date algorithms.
-/

set_option maxRecDepth 40000

/-! ## Host-platform date arithmetic (the JavaScript `Date` built-in)

A proleptic-Gregorian conversion between day numbers (days since the unix
epoch 1970-01-01) and civil `(year, month, day)` triples, following the
standard era-based algorithm (eras of 146097 days = 400 years, March-based
years).  The year-of-era and month extractions are computed by bounded
linear search, which is extensionally the usual closed-form algorithm but
admits direct proofs by induction. -/

/-- Largest `j` in `[0, fuel]` with `f j ≤ x`, and `0` if there is none. -/
def searchLe (f : Int → Int) : Nat → Int → Int
  | 0, _ => 0
  | k+1, x => if f ((k : Int) + 1) ≤ x then (k : Int) + 1 else searchLe f k x

/-- Days from the start of a 400-year era to the start of its
(March-based) year-of-era `yoe`. -/
def doeOfYoe (yoe : Int) : Int := 365 * yoe + yoe / 4 - yoe / 100

/-- Year-of-era containing day-of-era `doe`. -/
def yoeOf (doe : Int) : Int := searchLe doeOfYoe 399 doe

/-- Days before March-based month `mp` (`0` = March … `11` = February)
within a March-based year. -/
def dbmM (mp : Int) : Int := (153 * mp + 2) / 5

/-- March-based month containing day-of-year `doy`. -/
def mpOf (doy : Int) : Int := searchLe dbmM 11 doy

/-- A civil (proleptic Gregorian) calendar date, as exposed by the
JavaScript `Date` accessors (month is 1-based here; the 0-based JS
`getMonth` is derived below). -/
structure Civil where
  year : Int
  month : Int
  day : Int
deriving DecidableEq, Repr

/-- Civil date of day number `z` (days since 1970-01-01). -/
def civilFromDays (z : Int) : Civil :=
  let z' := z + 719468
  let era := z' / 146097
  let doe := z' - era * 146097
  let yoe := yoeOf doe
  let y := yoe + era * 400
  let doy := doe - doeOfYoe yoe
  let mp := mpOf doy
  let d := doy - dbmM mp + 1
  let m := if mp < 10 then mp + 3 else mp - 9
  ⟨if m ≤ 2 then y + 1 else y, m, d⟩

/-- Day number of the civil date `(y0, m, d)`.  Total: out-of-range `m`/`d`
are carried linearly, matching the ECMAScript `MakeDay` normalization. -/
def daysFromCivil (y0 m d : Int) : Int :=
  let y := if m ≤ 2 then y0 - 1 else y0
  let era := y / 400
  let yoe := y - era * 400
  let doy := dbmM (if m > 2 then m - 3 else m + 9) + d - 1
  let doe := doeOfYoe yoe + doy
  era * 146097 + doe - 719468

/-! ## JavaScript `Date` objects

A (valid) `Date` is its epoch-milliseconds value, an integer.  The local
time zone is modelled as a fixed offset `tz` in milliseconds (positive east
of UTC), so local time = UTC + `tz`. -/

/-- Local calendar day number (days since epoch, in local time) of the
instant `ms`. -/
def localDay (tz ms : Int) : Int := (ms + tz) / 86400000

/-- Epoch-milliseconds of local midnight of the local day containing `ms`. -/
def startOfLocalDay (tz ms : Int) : Int := localDay tz ms * 86400000 - tz

/-- The local civil date of the instant `ms`. -/
def localCivil (tz ms : Int) : Civil := civilFromDays (localDay tz ms)

/-- JS `date.getFullYear()`. -/
def jsGetFullYear (tz ms : Int) : Int := (localCivil tz ms).year

/-- JS `date.getMonth()` (0-based). -/
def jsGetMonth (tz ms : Int) : Int := (localCivil tz ms).month - 1

/-- JS `date.getDate()` (day of month). -/
def jsGetDate (tz ms : Int) : Int := (localCivil tz ms).day

/-- ECMAScript `MakeDay(y, m, d)` (0-based month, both month and day
normalized linearly). -/
def jsMakeDay (y m d : Int) : Int :=
  daysFromCivil (y + m / 12) (m % 12 + 1) 1 + (d - 1)

/-- ECMAScript `MakeFullYear`: in the multi-argument `Date` constructor a
year in `0 … 99` is remapped to `1900 + year`. -/
def jsRemapYear (y : Int) : Int := if 0 ≤ y ∧ y ≤ 99 then 1900 + y else y

/-- JS `new Date(y, m, d)` (local-time constructor, 0-based month):
epoch-milliseconds of local midnight of the given civil date. -/
def jsNewDateYMD (tz y m d : Int) : Int :=
  jsMakeDay (jsRemapYear y) m d * 86400000 - tz

/-! ## The pluggable calendar system (`CaLINEdarCalender`)

The calendar is an external collaborator of the controller (`this._calendar`).
Its contract (spec §4.1): conversions between JS dates and calendar-local
dates that return a falsy sentinel (`Option.none`) on failure, fixed
enumerations of days and months, month grids, and a boundary check
`isDateInCalendar` that the source calls with one argument (year) or two
(year, month) — modelled as two separate functions. -/

/-- A date of the pluggable calendar system (`{year, month, date}`). -/
structure LocalDate where
  year : Int
  month : Int
  date : Int
deriving DecidableEq, Repr

/-- Result object of `convertLocalDate2JSDate` (`{year, month, date}`,
month 0-based, fed to `new Date(…)`). -/
structure JsYMD where
  year : Int
  month : Int
  date : Int
deriving DecidableEq, Repr

/-- An entry of `calendar.getMonths(year)` (`{text, value}`). -/
structure JsMonth where
  text : String
  value : Int
deriving DecidableEq, Repr

/-- An entry of `calendar.getDays()` (`{text, value}`). -/
structure JsDay where
  text : String
  value : Int
deriving DecidableEq, Repr

/-- A date object returned by `calendar.getDates(year, month)`:
`{year, month, date, day, holiday}` (`day` is the weekday value). -/
structure CalDate where
  year : Int
  month : Int
  date : Int
  day : Int
  holiday : Bool
deriving DecidableEq, Repr

/-- One part of `calendar.getDateStringFormat(year, month)`. -/
structure FmtPart where
  text : String
  pos : Int
deriving DecidableEq, Repr

/-- Result of `calendar.getDateStringFormat(year, month)`. -/
structure DateStrFormat where
  year : FmtPart
  month : FmtPart
deriving DecidableEq, Repr

/-- The abstract `CaLINEdarCalender` collaborator. -/
structure Calendar where
  convertJSDate2LocalDate : Int → Int → Int → Option LocalDate
  convertLocalDate2JSDate : Int → Int → Int → Option JsYMD
  toLocaleDateString : Int → String
  getDateStringPlaceholder : String
  getDateStringFormat : Int → Int → DateStrFormat
  getDays : List JsDay
  getMonths : Int → List JsMonth
  getDates : Int → Int → Option (List CalDate)
  isDateInCalendarY : Int → Bool
  isDateInCalendarYM : Int → Int → Bool
  getNow : LocalDate

/-! ## Controller state and the public date API -/

/-- The picked-date state of one `CaLINEdarDateInput` instance:
`this._unixDate` (a JS `Date`, modelled by its epoch ms; `none` for
`null`/`undefined`), `this._localDate`, and `this.input.value`. -/
structure DateInputState where
  unixDate : Option Int
  localDate : Option LocalDate
  inputValue : String
deriving DecidableEq, Repr

/-- A JavaScript value passed to `setDate`: a `Date`, an integer
(`caLINEdar.isInt`), or anything else. -/
inductive JsValue
  | date (ms : Int)
  | int (n : Int)
  | other
deriving DecidableEq, Repr

/-- The epoch-ms the first part of `setDate` extracts from its argument
(`newDate` before re-alignment); `none` means `setDate` returns `false`
immediately. -/
def jsValueMs : JsValue → Option Int
  | .date ms => some ms
  | .int n => some (n * 1000)
  | .other => none

/-- Result of `setDate`: the new state, the returned boolean, and whether
`console.warn` was invoked. -/
structure SetDateResult where
  state : DateInputState
  ret : Bool
  warned : Bool
deriving DecidableEq, Repr

/-- `new Date(newDate.getFullYear(), newDate.getMonth(), newDate.getDate())` —
the alignment `setDate` performs to discard the time-of-day and ms part. -/
def realignMs (tz ms0 : Int) : Int :=
  jsNewDateYMD tz (jsGetFullYear tz ms0) (jsGetMonth tz ms0) (jsGetDate tz ms0)

/-- `setDate(date)` (lines 71–111 of `caLINEdarDateInput.js`). -/
def setDate (cal : Calendar) (tz : Int) (s : DateInputState) (v : JsValue) : SetDateResult :=
  match jsValueMs v with
  | none => ⟨s, false, false⟩
  | some ms0 =>
    let ms := realignMs tz ms0
    match cal.convertJSDate2LocalDate (jsGetFullYear tz ms) (jsGetMonth tz ms) (jsGetDate tz ms) with
    | none => ⟨s, false, true⟩
    | some loc => ⟨⟨some ms, some loc, cal.toLocaleDateString ms⟩, true, false⟩

/-- `getDate()`: `Math.floor(this._unixDate.getTime() / 1000)`, `null` if
no date is picked (a JS `Date` object is always truthy). -/
def getDate (s : DateInputState) : Option Int :=
  match s.unixDate with
  | some ms => some (ms / 1000)
  | none => none

/-- `clearDate()`. -/
def clearDate (cal : Calendar) (_s : DateInputState) : DateInputState :=
  ⟨none, none, cal.getDateStringPlaceholder⟩

/-- The date-state part of the constructor: fields start `undefined`, then
`if (!this.setDate(date)) this.clearDate()`. -/
def constructorInit (cal : Calendar) (tz : Int) (date : JsValue) : DateInputState :=
  let s0 : DateInputState := ⟨none, none, ""⟩
  let r := setDate cal tz s0 date
  if r.ret then r.state else clearDate cal r.state

/-- `closeCalendar()`: an early return when this input is not the current
one, otherwise re-set the stored date (`setDate(this._unixDate)`;
`setDate(null)` takes the not-a-Date-not-an-int path) and clear on
failure. -/
def closeCalendar (cal : Calendar) (tz : Int) (isCurrent : Bool) (s : DateInputState) :
    DateInputState :=
  if isCurrent then
    let v : JsValue :=
      match s.unixDate with
      | some ms => .date ms
      | none => .other
    let r := setDate cal tz s v
    if r.ret then r.state else clearDate cal r.state
  else s

/-! ## Concrete toy calendars (for witnesses and counterexamples) -/

/-- A permissive calendar: every JS date converts to the identically-numbered
local date. -/
def idCal : Calendar where
  convertJSDate2LocalDate := fun y m d => some ⟨y, m, d⟩
  convertLocalDate2JSDate := fun y m d => some ⟨y, m, d⟩
  toLocaleDateString := fun _ => "date-string"
  getDateStringPlaceholder := "yyyy/mm/dd"
  getDateStringFormat := fun _ _ => ⟨⟨"y", 0⟩, ⟨"m", 1⟩⟩
  getDays := [⟨"Su", 0⟩, ⟨"Mo", 1⟩, ⟨"Tu", 2⟩, ⟨"We", 3⟩, ⟨"Th", 4⟩, ⟨"Fr", 5⟩, ⟨"Sa", 6⟩]
  getMonths := fun _ => (List.range 12).map (fun i => ⟨toString i, (i : Int)⟩)
  getDates := fun _ _ => none
  isDateInCalendarY := fun _ => true
  isDateInCalendarYM := fun _ _ => true
  getNow := ⟨2018, 0, 1⟩

/-- A calendar that can only represent (JS) year 2000. -/
def cal2000 : Calendar :=
  { idCal with
    convertJSDate2LocalDate := fun y m d => if y = 2000 then some ⟨y, m, d⟩ else none }

/-! ## Serialized `data-caLINEdar-value` attributes

`_serializeValue` is `JSON.stringify`, `_unserializeValue` is `JSON.parse`
in a try/catch.  An attribute read back by a handler is classified as:
absent or empty (a falsy `getAttribute` result), a non-empty string that is
not valid JSON, or the serialization of a value `a` the widget itself wrote
(`JSON.parse ∘ JSON.stringify` is the identity on these values). -/

/-- A serialized attribute value as read back by the click handlers. -/
inductive Attr (α : Type)
  | missing
  | malformed
  | parsed (a : α)
deriving DecidableEq, Repr

/-- `_unserializeValue` (lines 503–509): `JSON.parse` returning `null` on
failure.  (`getAttribute` returning `null` feeds `JSON.parse(null)`, which
parses the string `"null"` to the value `null`; an empty string makes
`JSON.parse` throw, caught to `null` — so every non-`parsed` case is
`null`.) -/
def unserializeValue {α : Type} : Attr α → Option α
  | .missing => none
  | .malformed => none
  | .parsed a => some a

/-! ## Month navigation (`_calcPrevLocalMonth` / `_calcNextLocalMonth`)

`months.findIndex` returns `-1` when the month value is absent; the source
then reads `months[-2].value` (previous) or `months[0].value` (next).
Reading `.value` of `undefined` throws, modelled as `Option.none`. -/

/-- JS `Array.prototype.findIndex` (`-1` when no element matches). -/
def jsFindIndex {α : Type} (p : α → Bool) (l : List α) : Int :=
  match l.findIdx? p with
  | some i => (i : Int)
  | none => -1

/-- `_calcPrevLocalMonth(year, month, months)` (lines 511–526). -/
def calcPrevLocalMonth (year month : Int) (months : List JsMonth) : Option (Int × Int) :=
  let idx := jsFindIndex (fun m => m.value == month) months
  if idx = 0 then
    (months.getLast?).map (fun m => (year - 1, m.value))
  else if idx < 0 then
    none
  else
    (months[(idx - 1).toNat]?).map (fun m => (year, m.value))

/-- `_calcNextLocalMonth(year, month, months)` (lines 528–543).
With `idx = -1` the source reads `months[0].value` (no throw when months
exist); with an empty list `-1 === length - 1` and `months[0]` is
`undefined` (throw). -/
def calcNextLocalMonth (year month : Int) (months : List JsMonth) : Option (Int × Int) :=
  let idx := jsFindIndex (fun m => m.value == month) months
  if idx = (months.length : Int) - 1 then
    (months[0]?).map (fun m => (year + 1, m.value))
  else
    (months[(idx + 1).toNat]?).map (fun m => (year, m.value))

/-- Direction of a left/right navigation button. -/
inductive Dir
  | left
  | right
deriving DecidableEq, Repr

/-- The month targeted by `_flipDatePicker(year, month, dir)` (lines
365–373): under RTL the effective direction is inverted. -/
def flipDatePickerTarget (cal : Calendar) (rtl : Bool) (year month : Int) (dir : Dir) :
    Option (Int × Int) :=
  let months := cal.getMonths year
  let next := if rtl then dir = Dir.left else dir = Dir.right
  if next then calcNextLocalMonth year month months
  else calcPrevLocalMonth year month months

/-! ## The year picker -/

/-- The serialized year-picker value
`{anchorYear, anchorMonth, years}`. -/
structure YearPickerValue where
  anchorYear : Int
  anchorMonth : Int
  years : List Int
deriving DecidableEq, Repr

/-- A displayed year cell (`{text: y, value: y}`). -/
structure YearPickerItem where
  text : Int
  value : Int
deriving DecidableEq, Repr

/-- The view-model bundle `_getYearPickerParams` returns. -/
structure YearPickerParams where
  value : YearPickerValue
  years : List YearPickerItem
  noMoreLeft : Bool
  noMoreRight : Bool
  rtl : Bool
deriving DecidableEq, Repr

/-- The raw year block built by the three collection loops of
`_getYearPickerParams` (lines 451–460): `⌊COUNT/2⌋` years before the
anchor, the anchor, and the rest after it. -/
def yearsBlock (COUNT : Nat) (anchorYear : Int) : List Int :=
  let half := COUNT / 2
  ((List.range half).map (fun (i : Nat) => anchorYear - ((half : Int) - (i : Int)))) ++
    [anchorYear] ++
    ((List.range (COUNT - (half + 1))).map (fun (i : Nat) => anchorYear + ((i : Int) + 1)))

/-- `_getYearPickerParams(anchorYear, anchorMonth)` (lines 448–490).
`COUNT` is `caLINEdar.MAX_COUNT_YEAR_IN_YEAR_PICKER` (9 in the shipped
library — a 3×3 grid); theorems assume `1 ≤ COUNT`, matching the source's
use of `years[0]` and `years[COUNT - 1]`. -/
def getYearPickerParams (cal : Calendar) (COUNT : Nat) (rtl : Bool)
    (anchorYear anchorMonth : Int) : YearPickerParams :=
  let years := yearsBlock COUNT anchorYear
  let nmlRaw := !cal.isDateInCalendarY (years.getD 0 0 - 1)
  let nmrRaw := !cal.isDateInCalendarY (years.getD (COUNT - 1) 0 + 1)
  let noMoreLeft := if rtl then nmrRaw else nmlRaw
  let noMoreRight := if rtl then nmlRaw else nmrRaw
  let yearsF := years.filter (fun y => cal.isDateInCalendarY y)
  { value := ⟨anchorYear, anchorMonth, yearsF⟩
    years := yearsF.map (fun y => ⟨y, y⟩)
    noMoreLeft := noMoreLeft
    noMoreRight := noMoreRight
    rtl := rtl }

/-- `_flipYearPicker(anchorYear, anchorMonth, years, dir)` (lines 375–380):
`years` is the (filtered) year list deserialized from the picker value. -/
def flipYearPicker (cal : Calendar) (COUNT : Nat) (rtl : Bool)
    (anchorYear anchorMonth : Int) (years : List Int) (dir : Dir) : YearPickerParams :=
  let factor : Int := if dir = Dir.right then 1 else -1
  let factor := if rtl then factor * -1 else factor
  getYearPickerParams cal COUNT rtl (anchorYear + factor * (years.length : Int)) anchorMonth

/-! ## The month-grid cache and the object heap

`_getDatesWithCache` stores the array of objects `calendar.getDates`
returned and hands out a fresh shallow copy of each object
(`dates.map(d => Object.assign({}, d))`); the display code then mutates
the copies.  To make the aliasing claims meaningful, objects live in an
explicit arena (`Heap`) and object references are arena indices. -/

/-- A `getDates` object together with the mutable tags the widget adds
(`grayOut`, `special`, `picked`, `text`, `value`).  JS adds these as new
properties; absent is modelled as the default (`false` / `""` / `none`). -/
structure TaggedDate where
  base : CalDate
  grayOut : Bool
  special : Bool
  picked : Bool
  text : String
  value : Option String
deriving DecidableEq, Repr

instance : Inhabited TaggedDate := ⟨⟨⟨0, 0, 0, 0, false⟩, false, false, false, "", none⟩⟩

/-- A freshly produced `calendar.getDates` object: base fields only. -/
def tagOfCal (d : CalDate) : TaggedDate := ⟨d, false, false, false, "", none⟩

/-- `JSON.stringify` of a date object at the moment `_serializeValue(d)`
runs in the tagging pass (the `value` property is set only after the
object is stringified, so it does not appear). -/
def stringifyTagged (d : TaggedDate) : String :=
  "\x7b\"year\":" ++ toString d.base.year ++ ",\"month\":" ++ toString d.base.month ++
    ",\"date\":" ++ toString d.base.date ++ ",\"day\":" ++ toString d.base.day ++
    ",\"holiday\":" ++ toString d.base.holiday ++ ",\"grayOut\":" ++ toString d.grayOut ++
    ",\"special\":" ++ toString d.special ++ ",\"picked\":" ++ toString d.picked ++
    ",\"text\":\"" ++ d.text ++ "\"\x7d"

/-- Object arena; a JS object reference is an index into `objs`. -/
structure Heap where
  objs : List TaggedDate
deriving DecidableEq, Repr

def Heap.read (h : Heap) (p : Nat) : TaggedDate := h.objs.getD p default

def Heap.write (h : Heap) (p : Nat) (o : TaggedDate) : Heap := ⟨h.objs.set p o⟩

/-- Allocate a list of fresh objects, returning their references. -/
def Heap.allocList (h : Heap) (os : List TaggedDate) : Heap × List Nat :=
  (⟨h.objs ++ os⟩, (List.range os.length).map (fun i => h.objs.length + i))

/-- `this._datesCache` keyed by `(year, month)`, the heap, and a count of
`calendar.getDates` invocations (to express "no recomputation"). -/
structure CacheSt where
  heap : Heap
  cache : List ((Int × Int) × Option (List Nat))
  gdCalls : Nat
deriving DecidableEq, Repr

def emptyCacheSt : CacheSt := ⟨⟨[]⟩, [], 0⟩

def cacheLookup (c : List ((Int × Int) × Option (List Nat))) (k : Int × Int) :
    Option (Option (List Nat)) :=
  (c.find? (fun e => e.1 == k)).map (fun e => e.2)

/-- `_getDatesWithCache(year, month)` (lines 547–561): compute on miss and
store the array of original objects; return
`dates && dates.map(d => Object.assign({}, d))` — fresh shallow copies. -/
def getDatesWithCache (cal : Calendar) (st : CacheSt) (year month : Int) :
    CacheSt × Option (List Nat) :=
  match cacheLookup st.cache (year, month) with
  | some none => (st, none)
  | some (some ptrs) =>
    let hp := st.heap.allocList (ptrs.map st.heap.read)
    ({ st with heap := hp.1 }, some hp.2)
  | none =>
    match cal.getDates year month with
    | none =>
      ({ st with cache := ((year, month), none) :: st.cache, gdCalls := st.gdCalls + 1 }, none)
    | some ds =>
      let hp1 := st.heap.allocList (ds.map tagOfCal)
      let st1 : CacheSt := ⟨hp1.1, ((year, month), some hp1.2) :: st.cache, st.gdCalls + 1⟩
      let hp2 := st1.heap.allocList (hp1.2.map st1.heap.read)
      ({ st1 with heap := hp2.1 }, some hp2.2)

/-- `a && b && a.year === b.year && …` — `_datesEqual(d, datePicked)`. -/
def datesEqualLocal (d : CalDate) (b : Option LocalDate) : Bool :=
  match b with
  | none => false
  | some b => d.year == b.year && d.month == b.month && d.date == b.date

/-- Mark every object in `ps` gray (the `grayOut = true` writes of the
prepend/append loops). -/
def grayOutAll (h : Heap) (ps : List Nat) : Heap :=
  ps.foldl (fun h p => h.write p { h.read p with grayOut := true }) h

/-- One step of the final `dates.forEach` tagging pass: set `special`,
`picked`, `text`, then `value = _serializeValue(d)` on the object itself. -/
def tagCell (datePicked : Option LocalDate) (h : Heap) (p : Nat) : Heap :=
  let o := h.read p
  let o1 : TaggedDate :=
    { o with
      special := o.base.holiday && !o.grayOut
      picked := datesEqualLocal o.base datePicked
      text := toString o.base.date }
  h.write p { o1 with value := some (stringifyTagged o1) }

def tagAll (datePicked : Option LocalDate) (h : Heap) (cells : List (Option Nat)) : Heap :=
  cells.foldl
    (fun h c =>
      match c with
      | none => h
      | some p => tagCell datePicked h p) h

/-- Fetch an adjacent month grid when empty slots call for it
(`prevDates` / `nextDates` in `_getLocalDatesToDisplay`): `none` when the
month-navigation helper threw, `some (st, none)` when the grid stays
`null` (not needed, or the calendar returned `null`). -/
def fetchAdjacent (cal : Calendar) (st : CacheSt) (needed : Bool)
    (target : Option (Int × Int)) : Option (CacheSt × Option (List Nat)) :=
  if needed then
    match target with
    | none => none
    | some t => some (getDatesWithCache cal st t.1 t.2)
  else some (st, none)

/-- The grid-assembly part of `_getLocalDatesToDisplay` once the current
month's copies `dates` and `firstDayIdx` are known: splice in the previous
month (all of it — comma-operator loop), front `null` slots, the next
month (all of it), tail `null` slots, then run the tagging pass. -/
def displayAssemble (cal : Calendar) (MAXD : Int) (st1 : CacheSt) (year month : Int)
    (datePicked : Option LocalDate) (dates : List Nat) (fdi : Int) :
    CacheSt × Option (List (Option Nat)) :=
  let months := cal.getMonths year
  match fetchAdjacent cal st1 (decide (fdi > 0)) (calcPrevLocalMonth year month months) with
  | none => (st1, none)
  | some r1 =>
    let st2 := r1.1
    let prevPtrs := (r1.2).getD []
    let st3 : CacheSt := { st2 with heap := grayOutAll st2.heap prevPtrs }
    let dates2 : List (Option Nat) :=
      List.replicate ((fdi - (prevPtrs.length : Int)).toNat) none ++
        prevPtrs.map some ++ dates.map some
    let ect : Int := MAXD - (dates2.length : Int)
    match fetchAdjacent cal st3 (decide (ect > 0)) (calcNextLocalMonth year month months) with
    | none => (st3, none)
    | some r2 =>
      let st4 := r2.1
      let nextPtrs := (r2.2).getD []
      let st5 : CacheSt := { st4 with heap := grayOutAll st4.heap nextPtrs }
      let dates3 := dates2 ++ nextPtrs.map some ++
        List.replicate ((ect - (nextPtrs.length : Int)).toNat) none
      ({ st5 with heap := tagAll datePicked st5.heap dates3 }, some dates3)

/-- `_getLocalDatesToDisplay(year, month, datePicked)` (lines 563–624).

The two fill loops of the source read
`for (let i = prevDates.length - 1; emptyCountInStart > 0, i >= 0;)` and
`for (let i = 0; emptyCountInTail > 0, i < nextDates.length;)`: the first
operand of the comma expression is evaluated and discarded, so the loops
are controlled by `i >= 0` / `i < nextDates.length` alone and walk ALL of
the adjacent month (marking every object `grayOut` and splicing it in),
decrementing the empty-slot counters below zero.

`Option.none` in the second component stands for a thrown `TypeError`
(reading `dates[0].day` of a `null`/empty grid, or a month-navigation
helper reading `.value` of `undefined`). -/
def getLocalDatesToDisplay (cal : Calendar) (MAXD : Int) (st : CacheSt)
    (year month : Int) (datePicked : Option LocalDate) :
    CacheSt × Option (List (Option Nat)) :=
  let r0 := getDatesWithCache cal st year month
  let st1 := r0.1
  match r0.2 with
  | none => (st1, none)
  | some dates =>
    let fdi? : Option Int :=
      match cal.getDays with
      | [] => some (-1)
      | _ =>
        match dates.head? with
        | none => none
        | some p =>
          some (jsFindIndex (fun dd => dd.value == (st1.heap.read p).base.day) cal.getDays)
    match fdi? with
    | none => (st1, none)
    | some fdi => displayAssemble cal MAXD st1 year month datePicked dates fdi

/-! ## Date-picker parameters and the click handlers -/

/-- A panel button `{text, value}`. -/
structure PanelBtn where
  text : String
  value : String
deriving DecidableEq, Repr

/-- `_getPickerBtnsParams(year, month)` (lines 382–397). -/
def getPickerBtnsParams (cal : Calendar) (year month : Int) : List PanelBtn :=
  let format := cal.getDateStringFormat year month
  let btns : List PanelBtn :=
    [⟨format.year.text, "year-picker-btn"⟩, ⟨format.month.text, "month-picker-btn"⟩]
  if format.year.pos > format.month.pos then btns.reverse else btns

/-- The serialized date-picker value `{year, month}`. -/
structure DatePickerValue where
  year : Int
  month : Int
deriving DecidableEq, Repr

/-- The view-model bundle `_getDatePickerParams` returns (the `dates`
entries are object references into the heap). -/
structure DatePickerParams where
  dates : List (Option Nat)
  value : DatePickerValue
  pickerBtns : List PanelBtn
  weekHeaders : List String
  noMoreLeft : Bool
  noMoreRight : Bool
  rtl : Bool
deriving DecidableEq, Repr

/-- `_getDatePickerParams(year, month, datePicked)` (lines 399–425).
`none` stands for a `TypeError` escaping (from `_calcPrev/NextLocalMonth`
or `_getLocalDatesToDisplay`). -/
def getDatePickerParams (cal : Calendar) (MAXD : Int) (rtl : Bool) (st : CacheSt)
    (year month : Int) (datePicked : Option LocalDate) :
    CacheSt × Option DatePickerParams :=
  let pickerBtns := getPickerBtnsParams cal year month
  let weekHeaders := cal.getDays.map (fun d => d.text)
  let months := cal.getMonths year
  match calcPrevLocalMonth year month months, calcNextLocalMonth year month months with
  | some prev, some next =>
    let nmlRaw := !cal.isDateInCalendarYM prev.1 prev.2
    let nmrRaw := !cal.isDateInCalendarYM next.1 next.2
    let noMoreLeft := if rtl then nmrRaw else nmlRaw
    let noMoreRight := if rtl then nmlRaw else nmrRaw
    let r := getLocalDatesToDisplay cal MAXD st year month datePicked
    match r.2 with
    | none => (r.1, none)
    | some dates =>
      (r.1, some ⟨dates, ⟨year, month⟩, pickerBtns, weekHeaders, noMoreLeft, noMoreRight, rtl⟩)
  | _, _ => (st, none)

/-- `_flipDatePicker(year, month, dir)` (lines 365–373) down to the
re-rendered date-picker params. -/
def flipDatePicker (cal : Calendar) (MAXD : Int) (rtl : Bool) (st : CacheSt)
    (year month : Int) (localDate : Option LocalDate) (dir : Dir) :
    CacheSt × Option DatePickerParams :=
  match flipDatePickerTarget cal rtl year month dir with
  | none => (st, none)
  | some t => getDatePickerParams cal MAXD rtl st t.1 t.2 localDate

/-- The value parsed from a date cell's `data-caLINEdar-value` (the widget
serialized the whole tagged date object; the handler reads `.year`,
`.month`, `.date`). -/
structure CellValue where
  year : Int
  month : Int
  date : Int
deriving DecidableEq, Repr

/-- Outcome of one UI-event handler run: the picked-date state, the cache
state, and whether a `TypeError` escaped the handler. -/
structure HandlerResult where
  state : DateInputState
  cacheSt : CacheSt
  threw : Bool
deriving Repr

/-- `_onPanelButtonClick` for a click inside the DATE picker (lines
245–293).  `attrVal` is the picker-level `data-caLINEdar-value`,
`btnValue` the button's own value attribute, `goLeft`/`goRight` its CSS
classes.  The handler never touches the picked-date state; it throws iff
a dereference of the unserialized `null` (or a failure inside the flip)
occurs. -/
def onPanelButtonClickDate (cal : Calendar) (MAXD : Int) (rtl : Bool)
    (s : DateInputState) (cst : CacheSt) (attrVal : Attr DatePickerValue)
    (btnValue : Option String) (goLeft goRight : Bool) : HandlerResult :=
  let value? := unserializeValue attrVal
  if btnValue = some "year-picker-btn" then
    -- picker.id ≠ ID_YEAR_PICKER: `_showYearPicker(value.year, value.month)`
    match value? with
    | none => ⟨s, cst, true⟩
    | some _ => ⟨s, cst, false⟩
  else if btnValue = some "month-picker-btn" then
    match value? with
    | none => ⟨s, cst, true⟩
    | some _ => ⟨s, cst, false⟩
  else if goLeft then
    match value? with
    | none => ⟨s, cst, true⟩
    | some v =>
      let r := flipDatePicker cal MAXD rtl cst v.year v.month s.localDate Dir.left
      ⟨s, r.1, r.2.isNone⟩
  else if goRight then
    match value? with
    | none => ⟨s, cst, true⟩
    | some v =>
      let r := flipDatePicker cal MAXD rtl cst v.year v.month s.localDate Dir.right
      ⟨s, r.1, r.2.isNone⟩
  else ⟨s, cst, false⟩

/-- `_onPanelButtonClick` for a click inside the YEAR picker: the
`"year-picker-btn"` case breaks (`picker.id === ID_YEAR_PICKER`), the
`"month-picker-btn"` case shows the month picker, and left/right flip the
year block. -/
def onPanelButtonClickYear (cal : Calendar) (COUNT : Nat) (rtl : Bool)
    (s : DateInputState) (cst : CacheSt) (attrVal : Attr YearPickerValue)
    (btnValue : Option String) (goLeft goRight : Bool) : HandlerResult :=
  let value? := unserializeValue attrVal
  if btnValue = some "month-picker-btn" then
    -- `_showMonthPicker(value.year, value.month)`: only throws on `null`
    match value? with
    | none => ⟨s, cst, true⟩
    | some _ => ⟨s, cst, false⟩
  else if goLeft then
    match value? with
    | none => ⟨s, cst, true⟩
    | some v =>
      let _ := flipYearPicker cal COUNT rtl v.anchorYear v.anchorMonth v.years Dir.left
      ⟨s, cst, false⟩
  else if goRight then
    match value? with
    | none => ⟨s, cst, true⟩
    | some v =>
      let _ := flipYearPicker cal COUNT rtl v.anchorYear v.anchorMonth v.years Dir.right
      ⟨s, cst, false⟩
  else ⟨s, cst, false⟩

/-- `_onPick` for a cell of the DATE picker (lines 295–318): commit the
clicked date via `setDate` and re-render on success. -/
def onPickDate (cal : Calendar) (MAXD : Int) (rtl : Bool) (tz : Int)
    (s : DateInputState) (cst : CacheSt) (cell : Attr CellValue) : HandlerResult :=
  match cell with
  | .missing => ⟨s, cst, false⟩
  | .malformed => ⟨s, cst, true⟩
  | .parsed v =>
    match cal.convertLocalDate2JSDate v.year v.month v.date with
    | none => ⟨s, cst, true⟩
    | some j =>
      let ms := jsNewDateYMD tz j.year j.month j.date
      let r := setDate cal tz s (JsValue.date ms)
      if r.ret then
        match r.state.localDate with
        | some ld =>
          let disp := getDatePickerParams cal MAXD rtl cst ld.year ld.month (some ld)
          ⟨r.state, disp.1, disp.2.isNone⟩
        | none => ⟨r.state, cst, true⟩
      else ⟨r.state, cst, false⟩

/-- `_onPick` for a cell of the MONTH picker (lines 320–323). -/
def onPickMonth (cal : Calendar) (MAXD : Int) (rtl : Bool)
    (s : DateInputState) (cst : CacheSt) (cell : Attr DatePickerValue) : HandlerResult :=
  match cell with
  | .missing => ⟨s, cst, false⟩
  | .malformed => ⟨s, cst, true⟩
  | .parsed v =>
    let disp := getDatePickerParams cal MAXD rtl cst v.year v.month s.localDate
    ⟨s, disp.1, disp.2.isNone⟩

/-- `_onPick` for a cell of the YEAR picker (lines 325–330): `parseInt`
of the raw attribute, then re-render at that year.  (A non-numeric cell
attribute would give `NaN`; floating-point `NaN` is outside this model,
so only absent and numeric cell values are covered here.) -/
def onPickYear (cal : Calendar) (MAXD : Int) (rtl : Bool)
    (s : DateInputState) (cst : CacheSt) (cell : Option Int)
    (pickerAttr : Attr YearPickerValue) : HandlerResult :=
  match cell with
  | none => ⟨s, cst, false⟩
  | some year =>
    match unserializeValue pickerAttr with
    | none => ⟨s, cst, true⟩
    | some data =>
      let disp := getDatePickerParams cal MAXD rtl cst year data.anchorMonth s.localDate
      ⟨s, disp.1, disp.2.isNone⟩

/-- `openCalendar` / `onFocus` down to the displayed date picker
(`_openCalendar`, lines 345–350). -/
def openCalendarDisplay (cal : Calendar) (MAXD : Int) (rtl : Bool)
    (s : DateInputState) (cst : CacheSt) : HandlerResult :=
  let dateLocal := s.localDate.getD cal.getNow
  let disp := getDatePickerParams cal MAXD rtl cst dateLocal.year dateLocal.month s.localDate
  ⟨s, disp.1, disp.2.isNone⟩

/-- A public operation / UI event on one `CaLINEdarDateInput` instance. -/
inductive Op
  | opSetDate (v : JsValue)
  | opClearDate
  | opCloseCalendar (isCurrent : Bool)
  | opClearBtnClick
  | opClickOutside (isCurrent : Bool)
  | opFocus
  | opPanelDate (attrVal : Attr DatePickerValue) (btnValue : Option String)
      (goLeft goRight : Bool)
  | opPanelYear (attrVal : Attr YearPickerValue) (btnValue : Option String)
      (goLeft goRight : Bool)
  | opPickDate (cell : Attr CellValue)
  | opPickMonth (cell : Attr DatePickerValue)
  | opPickYear (cell : Option Int) (pickerAttr : Attr YearPickerValue)

/-- One public operation / event-handler run of the controller. -/
def runOp (cal : Calendar) (MAXD : Int) (COUNT : Nat) (rtl : Bool) (tz : Int)
    (s : DateInputState) (cst : CacheSt) : Op → HandlerResult
  | .opSetDate v => ⟨(setDate cal tz s v).state, cst, false⟩
  | .opClearDate => ⟨clearDate cal s, cst, false⟩
  | .opCloseCalendar b => ⟨closeCalendar cal tz b s, cst, false⟩
  | .opClearBtnClick => ⟨clearDate cal s, cst, false⟩
  | .opClickOutside b => ⟨closeCalendar cal tz b s, cst, false⟩
  | .opFocus => openCalendarDisplay cal MAXD rtl s cst
  | .opPanelDate attrVal btnValue goLeft goRight =>
    onPanelButtonClickDate cal MAXD rtl s cst attrVal btnValue goLeft goRight
  | .opPanelYear attrVal btnValue goLeft goRight =>
    onPanelButtonClickYear cal COUNT rtl s cst attrVal btnValue goLeft goRight
  | .opPickDate cell => onPickDate cal MAXD rtl tz s cst cell
  | .opPickMonth cell => onPickMonth cal MAXD rtl s cst cell
  | .opPickYear cell pickerAttr => onPickYear cal MAXD rtl s cst cell pickerAttr

/-- A calendar whose years are exactly the non-negative ones. -/
def posCal : Calendar :=
  { idCal with isDateInCalendarY := fun y => decide (0 ≤ y) }

/-- The opposite navigation direction. -/
def oppDir : Dir → Dir
  | .left => .right
  | .right => .left

/-! ## C2 — the picked-date state invariant -/

/-- C2's invariant: either nothing is picked (both `_unixDate` and
`_localDate` are null), or both are set and the local date is exactly the
calendar's conversion of the stored instant's civil fields.  The two
disjuncts are mutually exclusive (`none` vs `some`). -/
def StateInv (cal : Calendar) (tz : Int) (s : DateInputState) : Prop :=
  (s.unixDate = none ∧ s.localDate = none) ∨
  (∃ ms loc, s.unixDate = some ms ∧ s.localDate = some loc ∧
    cal.convertJSDate2LocalDate (jsGetFullYear tz ms) (jsGetMonth tz ms) (jsGetDate tz ms)
      = some loc)

/-! ## C10 — the month-grid fill loops (comma-operator bug) -/

/-- A simple concrete calendar for exercising the month grid: 12 months,
30-day months whose first date falls on weekday 2. -/
def toyCal : Calendar :=
  { idCal with
    getMonths := fun _ => (List.range 12).map (fun (i : Nat) => ⟨toString (i + 1), (i : Int) + 1⟩)
    getDates := fun y m =>
      some ((List.range 30).map (fun (i : Nat) =>
        ⟨y, m, (i : Int) + 1, (((2 + i) % 7 : Nat) : Int), false⟩)) }

/-! ## C9 — immutability of the month-grid cache -/

def heapLen (st : CacheSt) : Nat := st.heap.objs.length

/-- `p` is not referenced by any cached entry. -/
def notCached (st : CacheSt) (p : Nat) : Prop :=
  ∀ k ptrs, cacheLookup st.cache k = some (some ptrs) → p ∉ ptrs

/-- The cache invariant: every cached entry is exactly the untouched
result `calendar.getDates` produced for its key (`null` cached for a
`null` grid), and its object references point below the heap frontier. -/
def CacheInv (cal : Calendar) (st : CacheSt) : Prop :=
  ∀ y m e, cacheLookup st.cache (y, m) = some e →
    (e = none → cal.getDates y m = none) ∧
    (∀ ptrs, e = some ptrs →
      ∃ ds, cal.getDates y m = some ds ∧
        ptrs.map st.heap.read = ds.map tagOfCal ∧
        ∀ p ∈ ptrs, p < heapLen st)

/-- A reference the widget may mutate: allocated, and not cached. -/
def goodPtr (st : CacheSt) (p : Nat) : Prop := p < heapLen st ∧ notCached st p

/-- How the cache state evolves across `_getDatesWithCache` calls: the heap
only grows, existing objects keep their values, cached entries persist,
and entries new to the cache reference only freshly allocated objects. -/
structure CEvol (st st' : CacheSt) : Prop where
  len : heapLen st ≤ heapLen st'
  read : ∀ p, p < heapLen st → st'.heap.read p = st.heap.read p
  keep : ∀ k e, cacheLookup st.cache k = some e → cacheLookup st'.cache k = some e
  new_or_old : ∀ k e, cacheLookup st'.cache k = some e →
    cacheLookup st.cache k = some e ∨
      (cacheLookup st.cache k = none ∧
        ∀ ptrs, e = some ptrs → ∀ p ∈ ptrs, heapLen st ≤ p)

theorem searchLe_nonneg (f : Int → Int) (k : Nat) (x : Int) : 0 ≤ searchLe f k x := by
  induction k with
  | zero => simp [searchLe]
  | succ k ih =>
    rw [searchLe]
    split
    · omega
    · exact ih

theorem searchLe_le (f : Int → Int) (k : Nat) (x : Int) : searchLe f k x ≤ (k : Int) := by
  induction k with
  | zero => simp [searchLe]
  | succ k ih =>
    rw [searchLe]
    split
    · push_cast; omega
    · push_cast; omega

theorem searchLe_start_le (f : Int → Int) (k : Nat) (x : Int) (h : f 0 ≤ x) :
    f (searchLe f k x) ≤ x := by
  induction k with
  | zero => simpa [searchLe] using h
  | succ k ih =>
    rw [searchLe]
    split
    · assumption
    · exact ih

theorem searchLe_above (f : Int → Int) (k : Nat) (x j : Int)
    (hj : searchLe f k x < j) (hjk : j ≤ (k : Int)) : x < f j := by
  induction k with
  | zero =>
    rw [searchLe] at hj
    norm_num at hjk
    omega
  | succ k ih =>
    rw [searchLe] at hj
    push_cast at hjk
    split at hj
    · omega
    · rename_i hc
      rcases eq_or_lt_of_le hjk with he | hl
      · rw [he]; omega
      · exact ih hj (by omega)

theorem daysFromCivil_civilFromDays (z : Int) :
    daysFromCivil (civilFromDays z).year (civilFromDays z).month (civilFromDays z).day = z := by
  have core : ∀ era doe yoe doy mp m d y : Int,
      era = (z + 719468) / 146097 →
      doe = z + 719468 - era * 146097 →
      yoe = yoeOf doe →
      doy = doe - doeOfYoe yoe →
      mp = mpOf doy →
      d = doy - dbmM mp + 1 →
      m = (if mp < 10 then mp + 3 else mp - 9) →
      y = (if m ≤ 2 then yoe + era * 400 + 1 else yoe + era * 400) →
      daysFromCivil y m d = z := by
    intro era doe yoe doy mp m d y hera hdoe hyoe hdoy hmp hd hm hy
    have hy0 : 0 ≤ yoe := by rw [hyoe]; exact searchLe_nonneg _ _ _
    have hy399 : yoe ≤ 399 := by
      rw [hyoe]
      have h := searchLe_le doeOfYoe 399 doe
      simpa [yoeOf] using h
    have hmp0 : 0 ≤ mp := by rw [hmp]; exact searchLe_nonneg _ _ _
    have hmp11 : mp ≤ 11 := by
      rw [hmp]
      have h := searchLe_le dbmM 11 doy
      simpa [mpOf] using h
    have hy' : (if m ≤ 2 then y - 1 else y) = yoe + era * 400 := by
      split_ifs at hy ⊢ <;> omega
    have hshift : (if m > 2 then m - 3 else m + 9) = mp := by
      split_ifs at hm ⊢ <;> omega
    simp only [daysFromCivil]
    rw [hy', hshift]
    have hera400 : (yoe + era * 400) / 400 = era := by omega
    rw [hera400]
    have hyy : yoe + era * 400 - era * 400 = yoe := by ring
    rw [hyy]
    omega
  exact core _ _ _ _ _ _ _ _ rfl rfl rfl rfl rfl rfl rfl rfl

theorem civilFromDays_ranges (z : Int) :
    1 ≤ (civilFromDays z).month ∧ (civilFromDays z).month ≤ 12 ∧ 1 ≤ (civilFromDays z).day := by
  have core : ∀ era doe yoe doy mp : Int,
      era = (z + 719468) / 146097 →
      doe = z + 719468 - era * 146097 →
      yoe = yoeOf doe →
      doy = doe - doeOfYoe yoe →
      mp = mpOf doy →
      (1 ≤ (if mp < 10 then mp + 3 else mp - 9) ∧
       (if mp < 10 then mp + 3 else mp - 9) ≤ 12 ∧
       1 ≤ doy - dbmM mp + 1) := by
    intro era doe yoe doy mp hera hdoe hyoe hdoy hmp
    have hdoe0 : 0 ≤ doe := by subst hdoe; subst hera; omega
    have hylo : doeOfYoe yoe ≤ doe := by
      rw [hyoe]
      exact searchLe_start_le _ _ _ (by simp [doeOfYoe]; omega)
    have hdoy0 : 0 ≤ doy := by omega
    have hmp0 : 0 ≤ mp := by rw [hmp]; exact searchLe_nonneg _ _ _
    have hmp11 : mp ≤ 11 := by
      rw [hmp]
      have h := searchLe_le dbmM 11 doy
      simpa [mpOf] using h
    have hmplo : dbmM mp ≤ doy := by
      rw [hmp]
      exact searchLe_start_le _ _ _ (by simp [dbmM]; omega)
    refine ⟨?_, ?_, ?_⟩
    · split_ifs <;> omega
    · split_ifs <;> omega
    · omega
  exact core _ _ _ _ _ rfl rfl rfl rfl rfl

theorem jsMakeDay_eq_daysFromCivil (y m d : Int) (h1 : 1 ≤ m) (h2 : m ≤ 12) :
    jsMakeDay y (m - 1) d = daysFromCivil y m d := by
  unfold jsMakeDay
  have hq : (m - 1) / 12 = 0 := by omega
  have hr : (m - 1) % 12 = m - 1 := by omega
  rw [hq, hr]
  have hm : m - 1 + 1 = m := by ring
  have hy0 : y + (0 : Int) = y := by ring
  rw [hm, hy0]
  simp only [daysFromCivil]
  split_ifs <;> omega

/-- Re-aligning an instant through the JS getters and the `Date(y, m, d)`
constructor (as `setDate` does) yields local midnight of the same local
day — provided the local year is outside `0 … 99`, where `MakeFullYear`
would remap it. -/
theorem realign_eq_startOfLocalDay (tz ms : Int)
    (hyr : ¬ (0 ≤ jsGetFullYear tz ms ∧ jsGetFullYear tz ms ≤ 99)) :
    jsNewDateYMD tz (jsGetFullYear tz ms) (jsGetMonth tz ms) (jsGetDate tz ms) =
      startOfLocalDay tz ms := by
  unfold jsNewDateYMD jsRemapYear
  rw [if_neg hyr]
  have hr := civilFromDays_ranges (localDay tz ms)
  unfold jsGetFullYear jsGetMonth jsGetDate localCivil at *
  rw [jsMakeDay_eq_daysFromCivil _ _ _ hr.1 hr.2.1]
  rw [daysFromCivil_civilFromDays]
  rfl

theorem setDate_success_state (cal : Calendar) (tz : Int) (s : DateInputState) (v : JsValue)
    (hok : (setDate cal tz s v).ret = true) :
    ∃ ms0, jsValueMs v = some ms0 ∧
      ∃ loc,
        cal.convertJSDate2LocalDate
            (jsGetFullYear tz (realignMs tz ms0))
            (jsGetMonth tz (realignMs tz ms0))
            (jsGetDate tz (realignMs tz ms0))
          = some loc ∧
        (setDate cal tz s v).state =
          ⟨some (realignMs tz ms0), some loc, cal.toLocaleDateString (realignMs tz ms0)⟩ := by
  cases hv : jsValueMs v with
  | none =>
    unfold setDate at hok
    rw [hv] at hok
    exact Bool.noConfusion hok
  | some ms0 =>
    refine ⟨ms0, rfl, ?_⟩
    unfold setDate at hok ⊢
    rw [hv] at hok ⊢
    dsimp only at hok ⊢
    cases hc : cal.convertJSDate2LocalDate
        (jsGetFullYear tz (realignMs tz ms0))
        (jsGetMonth tz (realignMs tz ms0))
        (jsGetDate tz (realignMs tz ms0)) with
    | none =>
      rw [hc] at hok
      exact Bool.noConfusion hok
    | some loc => exact ⟨loc, rfl, rfl⟩

theorem setDate_unconvertible (cal : Calendar) (tz : Int) (s : DateInputState) (v : JsValue)
    (ms0 : Int) (hv : jsValueMs v = some ms0)
    (hc : cal.convertJSDate2LocalDate
        (jsGetFullYear tz (realignMs tz ms0))
        (jsGetMonth tz (realignMs tz ms0))
        (jsGetDate tz (realignMs tz ms0)) = none) :
    setDate cal tz s v = ⟨s, false, true⟩ := by
  unfold setDate
  rw [hv]
  dsimp only
  rw [hc]

theorem localDay_startOfLocalDay (tz ms : Int) :
    localDay tz (startOfLocalDay tz ms) = localDay tz ms := by
  unfold startOfLocalDay localDay
  omega

/-- `realignMs` at an instant whose local year is outside `0 … 99` is local
midnight of the same local day. -/
theorem realignMs_eq_startOfLocalDay (tz ms : Int)
    (hyr : ¬ (0 ≤ jsGetFullYear tz ms ∧ jsGetFullYear tz ms ≤ 99)) :
    realignMs tz ms = startOfLocalDay tz ms :=
  realign_eq_startOfLocalDay tz ms hyr

/-! ## C1 — `setDate` / `getDate` round trip -/

/-- C1 (amended): for every date accepted by `setDate` whose local calendar
year is outside `0 … 99` (where the JS `Date(y, m, d)` constructor remaps
the year to `1900 + y`), `getDate()` returns the unix-time seconds of the
start of the same local calendar day as the input, time-of-day and ms part
discarded; the stored date lies on the same local day as the input. -/
theorem setDate_getDate_same_day (cal : Calendar) (tz : Int) (s : DateInputState)
    (v : JsValue) (ms0 : Int)
    (hms : jsValueMs v = some ms0)
    (hyr : ¬ (0 ≤ jsGetFullYear tz ms0 ∧ jsGetFullYear tz ms0 ≤ 99))
    (hok : (setDate cal tz s v).ret = true) :
    getDate (setDate cal tz s v).state = some (startOfLocalDay tz ms0 / 1000) ∧
      ∃ ms', (setDate cal tz s v).state.unixDate = some ms' ∧
        localDay tz ms' = localDay tz ms0 := by
  obtain ⟨ms1, hv1, loc, hc, hstate⟩ := setDate_success_state cal tz s v hok
  rw [hms] at hv1
  obtain rfl : ms0 = ms1 := Option.some.inj hv1
  have hre : realignMs tz ms0 = startOfLocalDay tz ms0 := realignMs_eq_startOfLocalDay tz ms0 hyr
  rw [hstate]
  constructor
  · unfold getDate
    rw [hre]
  · exact ⟨realignMs tz ms0, rfl, by rw [hre]; exact localDay_startOfLocalDay tz ms0⟩

/-- C1 witness: a concrete successful round trip (1970-01-02, permissive
calendar, UTC). -/
theorem setDate_getDate_same_day_witness :
    getDate (setDate idCal 0 ⟨none, none, ""⟩ (.int 86400)).state =
        some (startOfLocalDay 0 86400000 / 1000) ∧
      ∃ ms', (setDate idCal 0 ⟨none, none, ""⟩ (.int 86400)).state.unixDate = some ms' ∧
        localDay 0 ms' = localDay 0 86400000 :=
  setDate_getDate_same_day idCal 0 ⟨none, none, ""⟩ (.int 86400) 86400000
    (by decide) (by decide) (by decide)

/-- C1 counterexample: for an instant in (local) year 50 the JS `Date`
constructor's two-digit-year remapping moves the stored date to year 1950,
so `getDate` does not return the start of the same day as the input.
`86400 * daysFromCivil 50 6 15` is the unix time of 0050-06-15 00:00 UTC. -/
theorem setDate_getDate_same_day_cex :
    (setDate idCal 0 ⟨none, none, ""⟩ (.int (86400 * daysFromCivil 50 6 15))).ret = true ∧
      getDate (setDate idCal 0 ⟨none, none, ""⟩ (.int (86400 * daysFromCivil 50 6 15))).state ≠
        some (startOfLocalDay 0 (86400 * daysFromCivil 50 6 15 * 1000) / 1000) := by
  refine ⟨by decide, by decide⟩

/-! ## C4 — failure policy of `setDate` -/

/-- C4 (amended): when the calendar cannot convert the (aligned) date,
`setDate` logs a warning and returns `false` without throwing, leaving the
whole state — picked date AND input field — unchanged; the cleared /
placeholder state arises in the constructor, which calls `clearDate` when
`setDate` fails. -/
theorem setDate_failure_policy (cal : Calendar) (tz : Int) (s : DateInputState)
    (v : JsValue) (ms0 : Int)
    (hv : jsValueMs v = some ms0)
    (hc : cal.convertJSDate2LocalDate
        (jsGetFullYear tz (realignMs tz ms0))
        (jsGetMonth tz (realignMs tz ms0))
        (jsGetDate tz (realignMs tz ms0)) = none) :
    setDate cal tz s v = ⟨s, false, true⟩ ∧
      constructorInit cal tz v = ⟨none, none, cal.getDateStringPlaceholder⟩ := by
  have h1 := setDate_unconvertible cal tz s v ms0 hv hc
  have h2 := setDate_unconvertible cal tz ⟨none, none, ""⟩ v ms0 hv hc
  refine ⟨h1, ?_⟩
  unfold constructorInit
  dsimp only
  rw [h2]
  rfl

/-- C4 witness: a concrete unconvertible `setDate` call (a calendar that
only represents year 2000, fed 1970-01-02). -/
theorem setDate_failure_policy_witness :
    setDate cal2000 0 ⟨none, none, ""⟩ (JsValue.int 86400) =
        ⟨⟨none, none, ""⟩, false, true⟩ ∧
      constructorInit cal2000 0 (JsValue.int 86400) =
        ⟨none, none, cal2000.getDateStringPlaceholder⟩ :=
  setDate_failure_policy cal2000 0 ⟨none, none, ""⟩ (JsValue.int 86400) 86400000
    (by decide) (by decide)

/-- C4 counterexample: `setDate` itself does NOT clear the input field on
an unconvertible value — with a date already set, a failing `setDate`
returns `false` and leaves the field showing the old date string, not the
placeholder. -/
theorem setDate_failure_policy_cex :
    (setDate cal2000 0
        (setDate cal2000 0 ⟨none, none, ""⟩
          (JsValue.date (86400000 * daysFromCivil 2000 1 5))).state
        (JsValue.int 86400)).ret = false ∧
      (setDate cal2000 0
          (setDate cal2000 0 ⟨none, none, ""⟩
            (JsValue.date (86400000 * daysFromCivil 2000 1 5))).state
          (JsValue.int 86400)).state.inputValue ≠ cal2000.getDateStringPlaceholder := by
  exact ⟨by decide, by decide⟩

/-! ## C5 / C6 / C7 — year-picker boundaries, block navigation, RTL -/

/-- The raw year block is `COUNT` consecutive years starting
`⌊COUNT/2⌋` below the anchor (so the anchor sits at index `⌊COUNT/2⌋`). -/
theorem yearsBlock_eq (COUNT : Nat) (a : Int) (hC : 1 ≤ COUNT) :
    yearsBlock COUNT a =
      (List.range COUNT).map (fun (i : Nat) => a - ((COUNT / 2 : Nat) : Int) + (i : Int)) := by
  have hsplit : COUNT = COUNT / 2 + 1 + (COUNT - (COUNT / 2 + 1)) := by omega
  have hr : List.range COUNT =
      List.range (COUNT / 2) ++ [COUNT / 2] ++
        (List.range (COUNT - (COUNT / 2 + 1))).map (fun x => COUNT / 2 + 1 + x) := by
    conv_lhs => rw [hsplit]
    rw [List.range_add, List.range_succ]
  rw [hr, List.map_append, List.map_append, List.map_map]
  unfold yearsBlock
  dsimp only
  congr 1
  · congr 1
    · apply List.map_congr_left
      intro i hi
      push_cast
      ring
    · simp only [List.map_cons, List.map_nil, List.cons.injEq, and_true]
      push_cast
      ring
  · apply List.map_congr_left
    intro i hi
    simp only [Function.comp_apply]
    push_cast
    ring

/-- C5: the year picker's raw block has length `COUNT`, and the navigation
flags are exactly the `isDateInCalendar` checks one year outside each end
of the block — with left and right exchanged under RTL. -/
theorem yearPicker_boundary_flags (cal : Calendar) (COUNT : Nat) (hC : 1 ≤ COUNT)
    (anchorYear anchorMonth : Int) :
    (yearsBlock COUNT anchorYear).length = COUNT ∧
    (getYearPickerParams cal COUNT false anchorYear anchorMonth).noMoreLeft
        = !cal.isDateInCalendarY ((yearsBlock COUNT anchorYear).getD 0 0 - 1) ∧
    (getYearPickerParams cal COUNT false anchorYear anchorMonth).noMoreRight
        = !cal.isDateInCalendarY ((yearsBlock COUNT anchorYear).getD (COUNT - 1) 0 + 1) ∧
    (getYearPickerParams cal COUNT true anchorYear anchorMonth).noMoreLeft
        = !cal.isDateInCalendarY ((yearsBlock COUNT anchorYear).getD (COUNT - 1) 0 + 1) ∧
    (getYearPickerParams cal COUNT true anchorYear anchorMonth).noMoreRight
        = !cal.isDateInCalendarY ((yearsBlock COUNT anchorYear).getD 0 0 - 1) := by
  refine ⟨?_, rfl, rfl, rfl, rfl⟩
  rw [yearsBlock_eq COUNT anchorYear hC, List.length_map, List.length_range]

/-- C5 witness: the block-size-9 instance on a concrete calendar. -/
theorem yearPicker_boundary_flags_witness :
    (yearsBlock 9 (2000 : Int)).length = 9 ∧
    (getYearPickerParams idCal 9 false 2000 3).noMoreLeft
        = !idCal.isDateInCalendarY ((yearsBlock 9 (2000 : Int)).getD 0 0 - 1) ∧
    (getYearPickerParams idCal 9 false 2000 3).noMoreRight
        = !idCal.isDateInCalendarY ((yearsBlock 9 (2000 : Int)).getD (9 - 1) 0 + 1) ∧
    (getYearPickerParams idCal 9 true 2000 3).noMoreLeft
        = !idCal.isDateInCalendarY ((yearsBlock 9 (2000 : Int)).getD (9 - 1) 0 + 1) ∧
    (getYearPickerParams idCal 9 true 2000 3).noMoreRight
        = !idCal.isDateInCalendarY ((yearsBlock 9 (2000 : Int)).getD 0 0 - 1) :=
  yearPicker_boundary_flags idCal 9 (by decide) 2000 3

/-- C6 counterexample: with the calendar boundary at year 0 and anchor 2,
the filtered year list shown has 7 entries (9-year block `[-2 … 6]`
clipped), so a right flip moves the anchor to `2 + 7 = 9`, not by the
fixed block size 9 (which would give 11). -/
theorem flipYearPicker_block_move_cex :
    (flipYearPicker posCal 9 false 2 0
        (getYearPickerParams posCal 9 false 2 0).value.years Dir.right).value.anchorYear
        = 9 ∧
      (9 : Int) ≠ 2 + 9 := by
  exact ⟨by decide, by decide⟩

/-- C6 (amended): a year-picker flip moves the anchor by the length of the
serialized (boundary-filtered) year list, in the effective direction
(exchanged under RTL); that length equals `MAX_COUNT_YEAR_IN_YEAR_PICKER`
exactly when the whole raw block lies inside the calendar (an iff); and
the raw block keeps the anchor centered: `⌊COUNT/2⌋` years before it,
the rest after. -/
theorem flipYearPicker_moves_by_displayed (cal : Calendar) (COUNT : Nat) (hC : 1 ≤ COUNT)
    (rtl : Bool) (anchorYear anchorMonth : Int) (years : List Int) (dir : Dir) :
    (flipYearPicker cal COUNT rtl anchorYear anchorMonth years dir).value.anchorYear
        = anchorYear +
          (if (if rtl then dir = Dir.left else dir = Dir.right) then (years.length : Int)
           else -(years.length : Int)) ∧
    ((getYearPickerParams cal COUNT rtl anchorYear anchorMonth).value.years.length
          = COUNT ↔
        ∀ y ∈ yearsBlock COUNT anchorYear, cal.isDateInCalendarY y = true) ∧
    yearsBlock COUNT anchorYear
        = (List.range COUNT).map (fun (i : Nat) => anchorYear - ((COUNT / 2 : Nat) : Int) + (i : Int)) := by
  refine ⟨?_, ?_, yearsBlock_eq COUNT anchorYear hC⟩
  · unfold flipYearPicker getYearPickerParams
    dsimp only
    cases rtl <;> cases dir <;> simp
  · have hlen : (yearsBlock COUNT anchorYear).length = COUNT := by
      rw [yearsBlock_eq COUNT anchorYear hC, List.length_map, List.length_range]
    unfold getYearPickerParams
    dsimp only
    constructor
    · intro hflen
      refine List.filter_eq_self.mp ?_
      exact (List.filter_sublist _).eq_of_length (by rw [hflen, hlen])
    · intro hall
      rw [List.filter_eq_self.mpr hall, hlen]

/-- C6 witness. -/
theorem flipYearPicker_moves_by_displayed_witness :
    (flipYearPicker idCal 9 false 5 0 [1, 2, 3] Dir.right).value.anchorYear
        = 5 + (if (if false then Dir.right = Dir.left else Dir.right = Dir.right)
            then (([1, 2, 3] : List Int).length : Int)
            else -(([1, 2, 3] : List Int).length : Int)) ∧
    ((getYearPickerParams idCal 9 false 5 0).value.years.length = 9 ↔
        ∀ y ∈ yearsBlock 9 5, idCal.isDateInCalendarY y = true) ∧
    yearsBlock 9 5 = (List.range 9).map (fun (i : Nat) => 5 - ((9 / 2 : Nat) : Int) + (i : Int)) :=
  flipYearPicker_moves_by_displayed idCal 9 (by decide) false 5 0 [1, 2, 3] Dir.right

/-- C7: setting the RTL flag makes a left/right navigation behave exactly
like the opposite-direction navigation without RTL (same target month,
same year-picker anchor), and the produced picker params only swap the
`noMoreLeft`/`noMoreRight` flags (and carry `rtl`), leaving the displayed
content (dates, value, buttons, headers, year list) unchanged. -/
theorem rtl_swaps_navigation (cal : Calendar) (MAXD : Int) (COUNT : Nat) :
    (∀ year month dir, flipDatePickerTarget cal true year month dir
        = flipDatePickerTarget cal false year month (oppDir dir)) ∧
    (∀ anchorYear anchorMonth years dir,
        (flipYearPicker cal COUNT true anchorYear anchorMonth years dir).value.anchorYear
          = (flipYearPicker cal COUNT false anchorYear anchorMonth years
              (oppDir dir)).value.anchorYear) ∧
    (∀ st year month datePicked,
        getDatePickerParams cal MAXD true st year month datePicked
          = ((getDatePickerParams cal MAXD false st year month datePicked).1,
             (getDatePickerParams cal MAXD false st year month datePicked).2.map
               (fun p =>
                 { p with
                   noMoreLeft := p.noMoreRight
                   noMoreRight := p.noMoreLeft
                   rtl := true }))) ∧
    (∀ anchorYear anchorMonth,
        getYearPickerParams cal COUNT true anchorYear anchorMonth
          = { getYearPickerParams cal COUNT false anchorYear anchorMonth with
              noMoreLeft := (getYearPickerParams cal COUNT false anchorYear anchorMonth).noMoreRight
              noMoreRight := (getYearPickerParams cal COUNT false anchorYear anchorMonth).noMoreLeft
              rtl := true }) := by
  refine ⟨?_, ?_, ?_, ?_⟩
  · intro year month dir
    cases dir <;> rfl
  · intro anchorYear anchorMonth years dir
    cases dir <;> rfl
  · intro st year month datePicked
    unfold getDatePickerParams
    dsimp only
    cases hp : calcPrevLocalMonth year month (cal.getMonths year) with
    | none => rfl
    | some prev =>
      cases hn : calcNextLocalMonth year month (cal.getMonths year) with
      | none => rfl
      | some next =>
        dsimp only
        cases hd : (getLocalDatesToDisplay cal MAXD st year month datePicked).2 with
        | none => rfl
        | some dates => rfl
  · intro anchorYear anchorMonth
    rfl

/-! ## C3 — month navigation is a round trip -/

theorem jsFindIndex_eq {α : Type} (p : α → Bool) (l : List α) (i : Nat)
    (h : l.findIdx? p = some i) : jsFindIndex p l = (i : Int) := by
  unfold jsFindIndex
  rw [h]

/-- In a list of months with pairwise-distinct values, `findIndex` of the
value at position `i` is `i`. -/
theorem findIdx_self_of_nodup (M : List JsMonth) (i : Nat) (hi : i < M.length)
    (hnd : (M.map (fun m => m.value)).Nodup) :
    M.findIdx? (fun m => m.value == (M[i]).value) = some i := by
  rw [List.findIdx?_eq_some_iff_getElem]
  refine ⟨hi, by simp, ?_⟩
  intro j hji
  have hj : j < M.length := Nat.lt_trans hji hi
  have hj2 : j < (M.map (fun m => m.value)).length := by simpa using hj
  have hi2 : i < (M.map (fun m => m.value)).length := by simpa using hi
  have hne : (M.map (fun m => m.value))[j] ≠ (M.map (fun m => m.value))[i] := by
    rw [Ne, hnd.getElem_inj_iff]
    omega
  simp only [List.getElem_map] at hne
  simp [hne]

theorem calcNext_calcPrev (year month : Int) (M : List JsMonth)
    (hnd : (M.map (fun m => m.value)).Nodup)
    (hmem : month ∈ M.map (fun m => m.value)) :
    (calcNextLocalMonth year month M).bind (fun t => calcPrevLocalMonth t.1 t.2 M) =
      some (year, month) := by
  obtain ⟨mo, hmo, hval⟩ := List.mem_map.mp hmem
  obtain ⟨i, hi, hgi⟩ := List.mem_iff_getElem.mp hmo
  subst hval
  rw [← hgi]
  unfold calcNextLocalMonth
  dsimp only
  rw [jsFindIndex_eq _ _ _ (findIdx_self_of_nodup M i hi hnd)]
  by_cases hlast : (i : Int) = (M.length : Int) - 1
  · rw [if_pos hlast]
    have h00 : 0 < M.length := by omega
    have h0 : M[0]? = some M[0] := List.getElem?_eq_getElem h00
    rw [h0]
    simp only [Option.map_some', Option.some_bind]
    unfold calcPrevLocalMonth
    dsimp only
    rw [jsFindIndex_eq _ _ _ (findIdx_self_of_nodup M 0 (by omega) hnd)]
    simp only [Nat.cast_zero, eq_self_iff_true, if_true]
    have hlen : M.length - 1 < M.length := by omega
    have hlast' : M.getLast? = some M[M.length - 1] := by
      rw [List.getLast?_eq_getElem?, List.getElem?_eq_getElem hlen]
    rw [hlast']
    simp only [Option.map_some', Option.some.injEq, Prod.mk.injEq]
    constructor
    · ring
    · have hieq : i = M.length - 1 := by omega
      subst hieq
      rfl
  · rw [if_neg hlast]
    have hlt : i + 1 < M.length := by
      have := Int.toNat_of_nonneg (a := (i : Int)) (by positivity)
      omega
    have ht : ((i : Int) + 1).toNat = i + 1 := by omega
    rw [ht, List.getElem?_eq_getElem hlt]
    simp only [Option.map_some', Option.some_bind]
    unfold calcPrevLocalMonth
    dsimp only
    rw [jsFindIndex_eq _ _ _ (findIdx_self_of_nodup M (i + 1) hlt hnd)]
    have hne0 : ¬(((i + 1 : Nat) : Int) = 0) := by push_cast; omega
    have hnlt : ¬(((i + 1 : Nat) : Int) < 0) := by push_cast; omega
    rw [if_neg hne0, if_neg hnlt]
    have ht2 : (((i + 1 : Nat) : Int) - 1).toNat = i := by push_cast; omega
    rw [ht2, List.getElem?_eq_getElem hi]
    simp

theorem calcPrev_calcNext (year month : Int) (M : List JsMonth)
    (hnd : (M.map (fun m => m.value)).Nodup)
    (hmem : month ∈ M.map (fun m => m.value)) :
    (calcPrevLocalMonth year month M).bind (fun t => calcNextLocalMonth t.1 t.2 M) =
      some (year, month) := by
  obtain ⟨mo, hmo, hval⟩ := List.mem_map.mp hmem
  obtain ⟨i, hi, hgi⟩ := List.mem_iff_getElem.mp hmo
  subst hval
  rw [← hgi]
  unfold calcPrevLocalMonth
  dsimp only
  rw [jsFindIndex_eq _ _ _ (findIdx_self_of_nodup M i hi hnd)]
  by_cases h0 : (i : Int) = 0
  · rw [if_pos h0]
    have hlen : M.length - 1 < M.length := by omega
    have hlast' : M.getLast? = some M[M.length - 1] := by
      rw [List.getLast?_eq_getElem?, List.getElem?_eq_getElem hlen]
    rw [hlast']
    simp only [Option.map_some', Option.some_bind]
    unfold calcNextLocalMonth
    dsimp only
    rw [jsFindIndex_eq _ _ _ (findIdx_self_of_nodup M (M.length - 1) hlen hnd)]
    have hc : ((M.length - 1 : Nat) : Int) = (M.length : Int) - 1 := by omega
    rw [if_pos hc]
    have hz0 : 0 < M.length := by omega
    have hz : M[0]? = some M[0] := List.getElem?_eq_getElem hz0
    rw [hz]
    simp only [Option.map_some', Option.some.injEq, Prod.mk.injEq]
    constructor
    · ring
    · have hzi : i = 0 := by omega
      subst hzi
      rfl
  · rw [if_neg h0, if_neg (by omega : ¬((i : Int) < 0))]
    have hipos : 0 < i := by omega
    have hlt : i - 1 < M.length := by omega
    have ht : ((i : Int) - 1).toNat = i - 1 := by omega
    rw [ht, List.getElem?_eq_getElem hlt]
    simp only [Option.map_some', Option.some_bind]
    unfold calcNextLocalMonth
    dsimp only
    rw [jsFindIndex_eq _ _ _ (findIdx_self_of_nodup M (i - 1) hlt hnd)]
    have hne : ¬(((i - 1 : Nat) : Int) = (M.length : Int) - 1) := by omega
    rw [if_neg hne]
    have ht2 : (((i - 1 : Nat) : Int) + 1).toNat = i := by omega
    rw [ht2, List.getElem?_eq_getElem hi]
    simp

/-- C3: with the calendar's month enumeration fixed across years (the
spec's "fixed enumerations") and month values pairwise distinct, flipping
the date picker one month right and then one month left (and symmetrically
left then right) returns to the original `(year, month)` — for either RTL
setting, across year boundaries included. -/
theorem monthNav_roundtrip (cal : Calendar) (rtl : Bool) (year month : Int)
    (M : List JsMonth)
    (hM : ∀ y, cal.getMonths y = M)
    (hnd : (M.map (fun m => m.value)).Nodup)
    (hmem : month ∈ M.map (fun m => m.value)) :
    ((flipDatePickerTarget cal rtl year month Dir.right).bind
        (fun t => flipDatePickerTarget cal rtl t.1 t.2 Dir.left)) = some (year, month) ∧
    ((flipDatePickerTarget cal rtl year month Dir.left).bind
        (fun t => flipDatePickerTarget cal rtl t.1 t.2 Dir.right)) = some (year, month) := by
  cases rtl with
  | false =>
    constructor
    · simp only [flipDatePickerTarget, hM]
      simpa using calcNext_calcPrev year month M hnd hmem
    · simp only [flipDatePickerTarget, hM]
      simpa using calcPrev_calcNext year month M hnd hmem
  | true =>
    constructor
    · simp only [flipDatePickerTarget, hM]
      simpa using calcPrev_calcNext year month M hnd hmem
    · simp only [flipDatePickerTarget, hM]
      simpa using calcNext_calcPrev year month M hnd hmem

/-- C3 witness: a concrete round trip across the December→January wrap
(month value 11 is the last month of `idCal`). -/
theorem monthNav_roundtrip_witness :
    ((flipDatePickerTarget idCal false 2000 11 Dir.right).bind
        (fun t => flipDatePickerTarget idCal false t.1 t.2 Dir.left)) = some (2000, 11) ∧
    ((flipDatePickerTarget idCal false 2000 11 Dir.left).bind
        (fun t => flipDatePickerTarget idCal false t.1 t.2 Dir.right)) = some (2000, 11) :=
  monthNav_roundtrip idCal false 2000 11 (idCal.getMonths 0) (fun _ => rfl)
    (by decide) (by decide)

theorem setDate_ret_false_state (cal : Calendar) (tz : Int) (s : DateInputState) (v : JsValue)
    (h : (setDate cal tz s v).ret = false) : (setDate cal tz s v).state = s := by
  unfold setDate at *
  cases hv : jsValueMs v with
  | none => rfl
  | some ms0 =>
    rw [hv] at h
    dsimp only at h ⊢
    cases hc : cal.convertJSDate2LocalDate
        (jsGetFullYear tz (realignMs tz ms0))
        (jsGetMonth tz (realignMs tz ms0))
        (jsGetDate tz (realignMs tz ms0)) with
    | none => rfl
    | some loc =>
      rw [hc] at h
      exact Bool.noConfusion h

theorem stateInv_setDate (cal : Calendar) (tz : Int) (s : DateInputState) (v : JsValue)
    (h : StateInv cal tz s) : StateInv cal tz (setDate cal tz s v).state := by
  by_cases hret : (setDate cal tz s v).ret = true
  · obtain ⟨ms0, _, loc, hc, hstate⟩ := setDate_success_state cal tz s v hret
    rw [hstate]
    exact Or.inr ⟨realignMs tz ms0, loc, rfl, rfl, hc⟩
  · rw [setDate_ret_false_state cal tz s v (by simpa using hret)]
    exact h

theorem stateInv_clearDate (cal : Calendar) (tz : Int) (s : DateInputState) :
    StateInv cal tz (clearDate cal s) :=
  Or.inl ⟨rfl, rfl⟩

theorem stateInv_setDateOrClear (cal : Calendar) (tz : Int) (s : DateInputState) (v : JsValue)
    (h : StateInv cal tz s) :
    StateInv cal tz
      (if (setDate cal tz s v).ret then (setDate cal tz s v).state
       else clearDate cal (setDate cal tz s v).state) := by
  by_cases hret : (setDate cal tz s v).ret = true
  · rw [hret]
    simpa using stateInv_setDate cal tz s v h
  · have hf : (setDate cal tz s v).ret = false := by simpa using hret
    rw [hf]
    simpa using stateInv_clearDate cal tz (setDate cal tz s v).state

theorem stateInv_constructorInit (cal : Calendar) (tz : Int) (v : JsValue) :
    StateInv cal tz (constructorInit cal tz v) := by
  unfold constructorInit
  dsimp only
  have h0 : StateInv cal tz ⟨none, none, ""⟩ := Or.inl ⟨rfl, rfl⟩
  have := stateInv_setDateOrClear cal tz ⟨none, none, ""⟩ v h0
  simpa using this

theorem stateInv_closeCalendar (cal : Calendar) (tz : Int) (b : Bool) (s : DateInputState)
    (h : StateInv cal tz s) : StateInv cal tz (closeCalendar cal tz b s) := by
  unfold closeCalendar
  cases b with
  | false => simpa using h
  | true =>
    dsimp only
    have := stateInv_setDateOrClear cal tz s
      (match s.unixDate with
        | some ms => JsValue.date ms
        | none => JsValue.other) h
    simpa using this

theorem stateInv_onPickDate (cal : Calendar) (MAXD : Int) (rtl : Bool) (tz : Int)
    (s : DateInputState) (cst : CacheSt) (cell : Attr CellValue)
    (h : StateInv cal tz s) :
    StateInv cal tz (onPickDate cal MAXD rtl tz s cst cell).state := by
  unfold onPickDate
  cases cell with
  | missing => exact h
  | malformed => exact h
  | parsed v =>
    dsimp only
    cases hc : cal.convertLocalDate2JSDate v.year v.month v.date with
    | none => exact h
    | some j =>
      dsimp only
      have hsd := stateInv_setDate cal tz s (JsValue.date (jsNewDateYMD tz j.year j.month j.date)) h
      by_cases hret : (setDate cal tz s (JsValue.date (jsNewDateYMD tz j.year j.month j.date))).ret = true
      · rw [if_pos hret]
        cases hld : (setDate cal tz s (JsValue.date (jsNewDateYMD tz j.year j.month j.date))).state.localDate with
        | some ld => exact hsd
        | none => exact hsd
      · rw [if_neg hret]
        exact hsd

/-- C2: after the constructor and after every public operation and event
handler, exactly one of the claim's two cases holds (the invariant's
disjuncts are mutually exclusive since `none ≠ some`); `getDate` is null
in the unpicked case; a failing `setDate` changes nothing (both fields are
updated together only on success); `clearDate` nulls both together. -/
theorem dateState_invariant (cal : Calendar) (MAXD : Int) (COUNT : Nat) (rtl : Bool) (tz : Int) :
    (∀ v, StateInv cal tz (constructorInit cal tz v)) ∧
    (∀ s cst op, StateInv cal tz s →
      StateInv cal tz (runOp cal MAXD COUNT rtl tz s cst op).state) ∧
    (∀ s : DateInputState, s.unixDate = none → getDate s = none) ∧
    (∀ s v, (setDate cal tz s v).ret = false → (setDate cal tz s v).state = s) ∧
    (∀ s : DateInputState,
      (clearDate cal s).unixDate = none ∧ (clearDate cal s).localDate = none) := by
  refine ⟨stateInv_constructorInit cal tz, ?_, ?_, ?_, fun s => ⟨rfl, rfl⟩⟩
  · intro s cst op h
    cases op with
    | opSetDate v => exact stateInv_setDate cal tz s v h
    | opClearDate => exact stateInv_clearDate cal tz s
    | opCloseCalendar b => exact stateInv_closeCalendar cal tz b s h
    | opClearBtnClick => exact stateInv_clearDate cal tz s
    | opClickOutside b => exact stateInv_closeCalendar cal tz b s h
    | opFocus => exact h
    | opPanelDate attrVal btnValue goLeft goRight =>
      unfold runOp onPanelButtonClickDate
      dsimp only
      split_ifs <;> cases hv : unserializeValue attrVal <;> exact h
    | opPanelYear attrVal btnValue goLeft goRight =>
      unfold runOp onPanelButtonClickYear
      dsimp only
      split_ifs <;> cases hv : unserializeValue attrVal <;> exact h
    | opPickDate cell => exact stateInv_onPickDate cal MAXD rtl tz s cst cell h
    | opPickMonth cell =>
      unfold runOp onPickMonth
      cases cell <;> exact h
    | opPickYear cell pickerAttr =>
      unfold runOp onPickYear
      cases cell with
      | none => exact h
      | some year =>
        dsimp only
        cases unserializeValue pickerAttr <;> exact h
  · intro s hs
    unfold getDate
    rw [hs]
  · intro s v
    exact setDate_ret_false_state cal tz s v

/-- C2 witness: the invariant applied to a concrete operation on a
concrete state. -/
theorem dateState_invariant_witness :
    StateInv idCal 0
      (runOp idCal 42 9 false 0 ⟨none, none, ""⟩ emptyCacheSt
        (Op.opSetDate (JsValue.int 86400))).state :=
  (dateState_invariant idCal 42 9 false 0).2.1 ⟨none, none, ""⟩ emptyCacheSt
    (Op.opSetDate (JsValue.int 86400)) (Or.inl ⟨rfl, rfl⟩)

/-! ## C8 — malformed serialized navigation values -/

/-- C8 counterexample: a malformed picker-level value is NOT silently
ignored — a left-click in the date picker dereferences the `null` from
`_unserializeValue` (`value.year`) and the handler throws a `TypeError`. -/
theorem malformed_value_throws_cex :
    (onPanelButtonClickDate idCal 42 false ⟨none, none, ""⟩ emptyCacheSt
        Attr.malformed none true false).threw = true := by
  decide

/-- C8 (amended): `_unserializeValue` returns `null` for a malformed
serialized value, and the handlers never check for it: every navigation
branch that dereferences the value — the panel's left and right buttons
in both the date and the year picker, the year- and month-picker buttons,
and the date- and month-picker cells (and the year-picker cell, which
dereferences the picker-level attribute) — throws a `TypeError` instead
of completing silently.  The picked-date state is nevertheless unchanged,
because the throw happens before any state mutation. -/
theorem malformed_value_behavior (cal : Calendar) (MAXD : Int) (COUNT : Nat)
    (rtl : Bool) (tz : Int) (s : DateInputState) (cst : CacheSt) :
    (unserializeValue (Attr.malformed : Attr DatePickerValue) = none) ∧
    (∀ btnValue goLeft goRight,
      (onPanelButtonClickDate cal MAXD rtl s cst Attr.malformed btnValue goLeft goRight).state
        = s) ∧
    (∀ btnValue goLeft goRight,
      (onPanelButtonClickYear cal COUNT rtl s cst Attr.malformed btnValue goLeft goRight).state
        = s) ∧
    ((onPanelButtonClickDate cal MAXD rtl s cst Attr.malformed none true false).threw = true) ∧
    ((onPanelButtonClickYear cal COUNT rtl s cst Attr.malformed none true false).threw = true) ∧
    ((onPickDate cal MAXD rtl tz s cst Attr.malformed).state = s ∧
      (onPickDate cal MAXD rtl tz s cst Attr.malformed).threw = true) ∧
    ((onPickMonth cal MAXD rtl s cst Attr.malformed).state = s ∧
      (onPickMonth cal MAXD rtl s cst Attr.malformed).threw = true) ∧
    ((onPanelButtonClickDate cal MAXD rtl s cst Attr.malformed none false true).threw = true) ∧
    ((onPanelButtonClickYear cal COUNT rtl s cst Attr.malformed none false true).threw = true) ∧
    (∀ goLeft goRight,
      (onPanelButtonClickDate cal MAXD rtl s cst Attr.malformed (some "year-picker-btn")
        goLeft goRight).threw = true) ∧
    (∀ goLeft goRight,
      (onPanelButtonClickDate cal MAXD rtl s cst Attr.malformed (some "month-picker-btn")
        goLeft goRight).threw = true) ∧
    (∀ goLeft goRight,
      (onPanelButtonClickYear cal COUNT rtl s cst Attr.malformed (some "month-picker-btn")
        goLeft goRight).threw = true) ∧
    (∀ cellYear : Int,
      (onPickYear cal MAXD rtl s cst (some cellYear) Attr.malformed).state = s ∧
      (onPickYear cal MAXD rtl s cst (some cellYear) Attr.malformed).threw = true) := by
  refine ⟨rfl, ?_, ?_, ?_, ?_, ⟨rfl, rfl⟩, ⟨rfl, rfl⟩, rfl, rfl,
    fun _ _ => rfl, fun _ _ => rfl, fun _ _ => rfl, fun _ => ⟨rfl, rfl⟩⟩
  · intro btnValue goLeft goRight
    unfold onPanelButtonClickDate
    dsimp only
    split_ifs <;> rfl
  · intro btnValue goLeft goRight
    unfold onPanelButtonClickYear
    dsimp only
    split_ifs <;> rfl
  · unfold onPanelButtonClickDate
    dsimp only
    split_ifs <;> first | rfl | simp_all
  · unfold onPanelButtonClickYear
    dsimp only
    split_ifs <;> first | rfl | simp_all

/-- C8 witness (the amended statement instantiated). -/
theorem malformed_value_behavior_witness :
    (unserializeValue (Attr.malformed : Attr DatePickerValue) = none) ∧
    (∀ btnValue goLeft goRight,
      (onPanelButtonClickDate idCal 42 false ⟨none, none, ""⟩ emptyCacheSt Attr.malformed
          btnValue goLeft goRight).state = ⟨none, none, ""⟩) ∧
    (∀ btnValue goLeft goRight,
      (onPanelButtonClickYear idCal 9 false ⟨none, none, ""⟩ emptyCacheSt Attr.malformed
          btnValue goLeft goRight).state = ⟨none, none, ""⟩) ∧
    ((onPanelButtonClickDate idCal 42 false ⟨none, none, ""⟩ emptyCacheSt Attr.malformed
        none true false).threw = true) ∧
    ((onPanelButtonClickYear idCal 9 false ⟨none, none, ""⟩ emptyCacheSt Attr.malformed
        none true false).threw = true) ∧
    ((onPickDate idCal 42 false 0 ⟨none, none, ""⟩ emptyCacheSt Attr.malformed).state
          = ⟨none, none, ""⟩ ∧
      (onPickDate idCal 42 false 0 ⟨none, none, ""⟩ emptyCacheSt Attr.malformed).threw = true) ∧
    ((onPickMonth idCal 42 false ⟨none, none, ""⟩ emptyCacheSt Attr.malformed).state
          = ⟨none, none, ""⟩ ∧
      (onPickMonth idCal 42 false ⟨none, none, ""⟩ emptyCacheSt Attr.malformed).threw = true) ∧
    ((onPanelButtonClickDate idCal 42 false ⟨none, none, ""⟩ emptyCacheSt Attr.malformed
        none false true).threw = true) ∧
    ((onPanelButtonClickYear idCal 9 false ⟨none, none, ""⟩ emptyCacheSt Attr.malformed
        none false true).threw = true) ∧
    (∀ goLeft goRight,
      (onPanelButtonClickDate idCal 42 false ⟨none, none, ""⟩ emptyCacheSt Attr.malformed
        (some "year-picker-btn") goLeft goRight).threw = true) ∧
    (∀ goLeft goRight,
      (onPanelButtonClickDate idCal 42 false ⟨none, none, ""⟩ emptyCacheSt Attr.malformed
        (some "month-picker-btn") goLeft goRight).threw = true) ∧
    (∀ goLeft goRight,
      (onPanelButtonClickYear idCal 9 false ⟨none, none, ""⟩ emptyCacheSt Attr.malformed
        (some "month-picker-btn") goLeft goRight).threw = true) ∧
    (∀ cellYear : Int,
      (onPickYear idCal 42 false ⟨none, none, ""⟩ emptyCacheSt (some cellYear)
        Attr.malformed).state = ⟨none, none, ""⟩ ∧
      (onPickYear idCal 42 false ⟨none, none, ""⟩ emptyCacheSt (some cellYear)
        Attr.malformed).threw = true) :=
  malformed_value_behavior idCal 42 9 false 0 ⟨none, none, ""⟩ emptyCacheSt

/-- C10, behaviour at the failing input: for a 30-day month whose first
date is on weekday index 2 (so 2 leading empty slots, and 30 + 2 ≤ 42 =
`MAX_COUNT_DATES_IN_DATE_PICKER`), `_getLocalDatesToDisplay` returns 60
cells — the whole previous month spliced in front — instead of the
42-cell padded grid the code's own comments and the 6×7 picker table call
for.  The comma operator in `for (…; emptyCountInStart > 0, i >= 0;)`
discards the intended stop condition. -/
theorem display_comma_bug :
    ((getLocalDatesToDisplay toyCal 42 emptyCacheSt 2000 5 none).2.map List.length)
        = some 60 ∧
      (60 : Nat) ≠ 42 := by
  exact ⟨by decide, by decide⟩

theorem cEvol_refl (st : CacheSt) : CEvol st st :=
  ⟨Nat.le_refl _, fun _ _ => rfl, fun _ _ h => h, fun _ _ h => Or.inl h⟩

theorem cEvol_trans {a b c : CacheSt} (h1 : CEvol a b) (h2 : CEvol b c) : CEvol a c where
  len := Nat.le_trans h1.len h2.len
  read := fun p hp => by rw [h2.read p (Nat.lt_of_lt_of_le hp h1.len), h1.read p hp]
  keep := fun k e h => h2.keep k e (h1.keep k e h)
  new_or_old := fun k e h => by
    cases h2.new_or_old k e h with
    | inl hb => exact h1.new_or_old k e hb
    | inr hnb =>
      right
      have hna : cacheLookup a.cache k = none := by
        cases hx : cacheLookup a.cache k with
        | none => rfl
        | some e0 =>
          rw [h1.keep k e0 hx] at hnb
          exact Option.noConfusion hnb.1
      exact ⟨hna, fun ptrs he p hp => Nat.le_trans h1.len (hnb.2 ptrs he p hp)⟩

theorem goodPtr_mono {st st' : CacheSt} {p : Nat} (ev : CEvol st st') (h : goodPtr st p) :
    goodPtr st' p := by
  refine ⟨Nat.lt_of_lt_of_le h.1 ev.len, ?_⟩
  intro k ptrs hke
  cases ev.new_or_old k (some ptrs) hke with
  | inl hold => exact h.2 k ptrs hold
  | inr hnew =>
    intro hp
    have := hnew.2 ptrs rfl p hp
    have hlt : p < heapLen st := h.1
    omega

theorem heap_read_alloc_old (h : Heap) (os : List TaggedDate) (p : Nat)
    (hp : p < h.objs.length) : (h.allocList os).1.read p = h.read p := by
  unfold Heap.allocList Heap.read
  dsimp only
  simp only [List.getD_eq_getElem?_getD]
  rw [List.getElem?_append_left hp]

theorem heap_read_write_ne (h : Heap) (p q : Nat) (o : TaggedDate) (hne : q ≠ p) :
    (h.write p o).read q = h.read q := by
  unfold Heap.write Heap.read
  dsimp only
  simp only [List.getD_eq_getElem?_getD]
  rw [List.getElem?_set_ne (Ne.symm hne)]

theorem heap_len_write (h : Heap) (p : Nat) (o : TaggedDate) :
    (h.write p o).objs.length = h.objs.length := by
  unfold Heap.write
  exact List.length_set h.objs p o

theorem heap_len_alloc (h : Heap) (os : List TaggedDate) :
    (h.allocList os).1.objs.length = h.objs.length + os.length := by
  simp [Heap.allocList]

theorem heap_alloc_fresh (h : Heap) (os : List TaggedDate) :
    ∀ p ∈ (h.allocList os).2, h.objs.length ≤ p ∧ p < h.objs.length + os.length := by
  intro p hp
  simp only [Heap.allocList, List.mem_map, List.mem_range] at hp
  obtain ⟨i, hi, rfl⟩ := hp
  omega

theorem heap_alloc_reads (h : Heap) (os : List TaggedDate) :
    ((h.allocList os).2).map (h.allocList os).1.read = os := by
  apply List.ext_getElem
  · simp [Heap.allocList]
  · intro i h1 h2
    simp only [Heap.allocList, List.getElem_map, List.getElem_range, Heap.read,
      List.getD_eq_getElem?_getD]
    rw [List.getElem?_append_right (by omega)]
    have hx : h.objs.length + i - h.objs.length = i := by omega
    rw [hx, List.getElem?_eq_getElem h2]
    rfl

theorem cacheLookup_cons (k0 : Int × Int) (e0 : Option (List Nat))
    (c : List ((Int × Int) × Option (List Nat))) (k : Int × Int) :
    cacheLookup ((k0, e0) :: c) k = if k0 = k then some e0 else cacheLookup c k := by
  unfold cacheLookup
  rw [List.find?_cons]
  by_cases h : k0 = k
  · subst h
    simp
  · have hb : ((k0, e0).1 == k) = false := by
      simp [h]
    rw [hb]
    rw [if_neg h]

theorem cacheInv_heap_alloc (cal : Calendar) (st : CacheSt) (os : List TaggedDate)
    (hinv : CacheInv cal st) :
    CacheInv cal { st with heap := (st.heap.allocList os).1 } := by
  intro y m e he
  refine ⟨(hinv y m e he).1, ?_⟩
  intro ptrs hp
  obtain ⟨ds, h1, h2, h3⟩ := (hinv y m e he).2 ptrs hp
  refine ⟨ds, h1, ?_, ?_⟩
  · rw [← h2]
    apply List.map_congr_left
    intro q hq
    exact heap_read_alloc_old st.heap os q (h3 q hq)
  · intro q hq
    have hb := h3 q hq
    have hlen := heap_len_alloc st.heap os
    unfold heapLen at *
    dsimp only at *
    omega

theorem cEvol_heap_alloc (st : CacheSt) (os : List TaggedDate) :
    CEvol st { st with heap := (st.heap.allocList os).1 } where
  len := by
    have := heap_len_alloc st.heap os
    unfold heapLen
    dsimp only
    omega
  read := fun p hp => heap_read_alloc_old st.heap os p hp
  keep := fun _ _ h => h
  new_or_old := fun _ _ h => Or.inl h

theorem cacheInv_heap_write (cal : Calendar) (st : CacheSt) (p : Nat) (o : TaggedDate)
    (hinv : CacheInv cal st) (hnc : notCached st p) :
    CacheInv cal { st with heap := st.heap.write p o } := by
  intro y m e he
  refine ⟨(hinv y m e he).1, ?_⟩
  intro ptrs hp
  subst hp
  obtain ⟨ds, h1, h2, h3⟩ := (hinv y m _ he).2 ptrs rfl
  refine ⟨ds, h1, ?_, ?_⟩
  · rw [← h2]
    apply List.map_congr_left
    intro q hq
    refine heap_read_write_ne st.heap p q o ?_
    intro hqp
    exact hnc (y, m) ptrs he (hqp ▸ hq)
  · intro q hq
    have hb := h3 q hq
    have hlen := heap_len_write st.heap p o
    unfold heapLen at *
    dsimp only at *
    omega

theorem len_grayOutAll (ps : List Nat) : ∀ h : Heap,
    (grayOutAll h ps).objs.length = h.objs.length := by
  induction ps with
  | nil => intro h; rfl
  | cons p ps ih =>
    intro h
    have hc : grayOutAll h (p :: ps) =
        grayOutAll (h.write p { h.read p with grayOut := true }) ps := rfl
    rw [hc, ih, heap_len_write]

theorem cacheInv_grayOutAll (cal : Calendar) (ps : List Nat) : ∀ st : CacheSt,
    CacheInv cal st → (∀ p ∈ ps, notCached st p) →
    CacheInv cal { st with heap := grayOutAll st.heap ps } := by
  induction ps with
  | nil => intro st hinv _; exact hinv
  | cons p ps ih =>
    intro st hinv hps
    have h1 := cacheInv_heap_write cal st p { st.heap.read p with grayOut := true } hinv
      (hps p (by simp))
    exact ih { st with heap := st.heap.write p { st.heap.read p with grayOut := true } } h1
      (fun q hq => hps q (by simp [hq]))

theorem cacheInv_tagAll (cal : Calendar) (dp : Option LocalDate)
    (cells : List (Option Nat)) : ∀ st : CacheSt,
    CacheInv cal st → (∀ p, some p ∈ cells → notCached st p) →
    CacheInv cal { st with heap := tagAll dp st.heap cells } := by
  induction cells with
  | nil => intro st hinv _; exact hinv
  | cons c cs ih =>
    intro st hinv hcs
    cases c with
    | none => exact ih st hinv (fun q hq => hcs q (by simp [hq]))
    | some p =>
      have h1 := cacheInv_heap_write cal st p
        (let o := st.heap.read p
         let o1 : TaggedDate :=
           { o with
             special := o.base.holiday && !o.grayOut
             picked := datesEqualLocal o.base dp
             text := toString o.base.date }
         { o1 with value := some (stringifyTagged o1) }) hinv (hcs p (by simp))
      exact ih _ h1 (fun q hq => hcs q (by simp [hq]))

theorem goodPtr_heapUpd (st : CacheSt) (hp : Heap)
    (hlen : hp.objs.length = st.heap.objs.length) (p : Nat) (hg : goodPtr st p) :
    goodPtr { st with heap := hp } p := by
  refine ⟨?_, hg.2⟩
  have := hg.1
  unfold heapLen at *
  dsimp only at *
  omega

theorem gdwc_hit (cal : Calendar) (st : CacheSt) (year month : Int) (ptrs : List Nat)
    (hl : cacheLookup st.cache (year, month) = some (some ptrs)) :
    (getDatesWithCache cal st year month).1.gdCalls = st.gdCalls ∧
    ∃ ps, (getDatesWithCache cal st year month).2 = some ps ∧
      ps.map ((getDatesWithCache cal st year month).1).heap.read = ptrs.map st.heap.read := by
  unfold getDatesWithCache
  rw [hl]
  exact ⟨rfl, _, rfl, heap_alloc_reads st.heap (ptrs.map st.heap.read)⟩

theorem gdwc_main (cal : Calendar) (st : CacheSt) (year month : Int)
    (hinv : CacheInv cal st) :
    CacheInv cal (getDatesWithCache cal st year month).1 ∧
    CEvol st (getDatesWithCache cal st year month).1 ∧
    (∀ ps, (getDatesWithCache cal st year month).2 = some ps →
      ∀ p ∈ ps, goodPtr (getDatesWithCache cal st year month).1 p) := by
  unfold getDatesWithCache
  cases hl : cacheLookup st.cache (year, month) with
  | some e =>
    cases e with
    | none =>
      refine ⟨hinv, cEvol_refl st, ?_⟩
      intro ps hps
      exact Option.noConfusion hps
    | some ptrs =>
      dsimp only
      refine ⟨cacheInv_heap_alloc cal st (ptrs.map st.heap.read) hinv,
        cEvol_heap_alloc st (ptrs.map st.heap.read), ?_⟩
      intro ps hps p hp
      have hps' : (st.heap.allocList (ptrs.map st.heap.read)).2 = ps := Option.some.inj hps
      rw [← hps'] at hp
      have hf := heap_alloc_fresh st.heap (ptrs.map st.heap.read) p hp
      have hlen := heap_len_alloc st.heap (ptrs.map st.heap.read)
      constructor
      · unfold heapLen
        dsimp only
        omega
      · intro k ptrs' hk hmem
        obtain ⟨ds', _, _, hb⟩ := (hinv k.1 k.2 _ hk).2 ptrs' rfl
        have := hb p hmem
        unfold heapLen at this
        omega
  | none =>
    cases hg : cal.getDates year month with
    | none =>
      dsimp only
      refine ⟨?_, ?_, ?_⟩
      · intro y m e he
        rw [cacheLookup_cons] at he
        by_cases hk : ((year, month) : Int × Int) = (y, m)
        · rw [if_pos hk] at he
          obtain rfl : (none : Option (List Nat)) = e := Option.some.inj he
          rw [Prod.mk.injEq] at hk
          obtain ⟨rfl, rfl⟩ := hk
          exact ⟨fun _ => hg, fun ptrs hp => Option.noConfusion hp⟩
        · rw [if_neg hk] at he
          exact hinv y m e he
      · refine ⟨Nat.le_refl _, fun _ _ => rfl, ?_, ?_⟩
        · intro k e h
          rw [cacheLookup_cons]
          have hk : ((year, month) : Int × Int) ≠ k := by
            intro hkk
            rw [← hkk] at h
            rw [hl] at h
            exact Option.noConfusion h
          rw [if_neg hk]
          exact h
        · intro k e h
          rw [cacheLookup_cons] at h
          by_cases hk : ((year, month) : Int × Int) = k
          · rw [if_pos hk] at h
            obtain rfl : (none : Option (List Nat)) = e := Option.some.inj h
            right
            refine ⟨by rw [← hk]; exact hl, ?_⟩
            intro ptrs hp
            exact Option.noConfusion hp
          · rw [if_neg hk] at h
            exact Or.inl h
      · intro ps hps
        exact Option.noConfusion hps
    | some ds =>
      dsimp only
      have hinv1 : CacheInv cal
          ⟨(st.heap.allocList (ds.map tagOfCal)).1,
           ((year, month), some (st.heap.allocList (ds.map tagOfCal)).2) :: st.cache,
           st.gdCalls + 1⟩ := by
        intro y m e he
        rw [cacheLookup_cons] at he
        by_cases hk : ((year, month) : Int × Int) = (y, m)
        · rw [if_pos hk] at he
          obtain rfl : (some (st.heap.allocList (ds.map tagOfCal)).2 : Option (List Nat)) = e :=
            Option.some.inj he
          rw [Prod.mk.injEq] at hk
          obtain ⟨rfl, rfl⟩ := hk
          refine ⟨fun h => Option.noConfusion h, ?_⟩
          intro ptrs hp
          obtain rfl : (st.heap.allocList (ds.map tagOfCal)).2 = ptrs := Option.some.inj hp
          refine ⟨ds, hg, heap_alloc_reads st.heap (ds.map tagOfCal), ?_⟩
          intro p hp2
          have hf := heap_alloc_fresh st.heap (ds.map tagOfCal) p hp2
          have hlen := heap_len_alloc st.heap (ds.map tagOfCal)
          unfold heapLen
          dsimp only
          omega
        · rw [if_neg hk] at he
          refine ⟨(hinv y m e he).1, ?_⟩
          intro ptrs hp
          obtain ⟨ds', h1, h2, h3⟩ := (hinv y m e he).2 ptrs hp
          refine ⟨ds', h1, ?_, ?_⟩
          · rw [← h2]
            apply List.map_congr_left
            intro q hq
            exact heap_read_alloc_old st.heap (ds.map tagOfCal) q (h3 q hq)
          · intro q hq
            have hb := h3 q hq
            have hlen := heap_len_alloc st.heap (ds.map tagOfCal)
            unfold heapLen at *
            dsimp only at *
            omega
      have hev1 : CEvol st
          ⟨(st.heap.allocList (ds.map tagOfCal)).1,
           ((year, month), some (st.heap.allocList (ds.map tagOfCal)).2) :: st.cache,
           st.gdCalls + 1⟩ := by
        refine ⟨?_, ?_, ?_, ?_⟩
        · have := heap_len_alloc st.heap (ds.map tagOfCal)
          unfold heapLen
          dsimp only
          omega
        · intro p hp
          exact heap_read_alloc_old st.heap (ds.map tagOfCal) p hp
        · intro k e h
          rw [cacheLookup_cons]
          have hk : ((year, month) : Int × Int) ≠ k := by
            intro hkk
            rw [← hkk] at h
            rw [hl] at h
            exact Option.noConfusion h
          rw [if_neg hk]
          exact h
        · intro k e h
          rw [cacheLookup_cons] at h
          by_cases hk : ((year, month) : Int × Int) = k
          · rw [if_pos hk] at h
            obtain rfl : (some (st.heap.allocList (ds.map tagOfCal)).2 : Option (List Nat)) = e :=
              Option.some.inj h
            right
            refine ⟨by rw [← hk]; exact hl, ?_⟩
            intro ptrs hp p hp2
            obtain rfl : (st.heap.allocList (ds.map tagOfCal)).2 = ptrs := Option.some.inj hp
            exact (heap_alloc_fresh st.heap (ds.map tagOfCal) p hp2).1
          · rw [if_neg hk] at h
            exact Or.inl h
      refine ⟨cacheInv_heap_alloc cal _ _ hinv1,
        cEvol_trans hev1 (cEvol_heap_alloc _ _), ?_⟩
      intro ps hps p hp
      have hps' := Option.some.inj hps
      rw [← hps'] at hp
      have hf := heap_alloc_fresh _ _ p hp
      have hlen2 := heap_len_alloc
        (⟨(st.heap.allocList (ds.map tagOfCal)).1,
          ((year, month), some (st.heap.allocList (ds.map tagOfCal)).2) :: st.cache,
          st.gdCalls + 1⟩ : CacheSt).heap
        ((st.heap.allocList (ds.map tagOfCal)).2.map
          (⟨(st.heap.allocList (ds.map tagOfCal)).1,
            ((year, month), some (st.heap.allocList (ds.map tagOfCal)).2) :: st.cache,
            st.gdCalls + 1⟩ : CacheSt).heap.read)
      constructor
      · unfold heapLen
        dsimp only at *
        omega
      · intro k ptrs' hk hmem
        rw [cacheLookup_cons] at hk
        by_cases hkk : ((year, month) : Int × Int) = k
        · rw [if_pos hkk] at hk
          obtain rfl : (st.heap.allocList (ds.map tagOfCal)).2 = ptrs' :=
            Option.some.inj (Option.some.inj hk)
          have hb := heap_alloc_fresh st.heap (ds.map tagOfCal) p hmem
          have hlen1 := heap_len_alloc st.heap (ds.map tagOfCal)
          omega
        · rw [if_neg hkk] at hk
          obtain ⟨ds', _, _, hb⟩ := (hinv k.1 k.2 _ hk).2 ptrs' rfl
          have hbp := hb p hmem
          have hlen1 := heap_len_alloc st.heap (ds.map tagOfCal)
          unfold heapLen at hbp
          omega

theorem fetchAdjacent_main (cal : Calendar) (st : CacheSt) (needed : Bool)
    (target : Option (Int × Int)) (hinv : CacheInv cal st) :
    ∀ r, fetchAdjacent cal st needed target = some r →
      CacheInv cal r.1 ∧ CEvol st r.1 ∧
        (∀ ps, r.2 = some ps → ∀ p ∈ ps, goodPtr r.1 p) := by
  intro r hf
  unfold fetchAdjacent at hf
  cases needed with
  | false =>
    have h1 := Option.some.inj hf
    rw [← h1]
    refine ⟨hinv, cEvol_refl st, ?_⟩
    intro ps hps
    exact Option.noConfusion hps
  | true =>
    cases target with
    | none => exact Option.noConfusion hf
    | some t =>
      have h1 := Option.some.inj hf
      rw [← h1]
      obtain ⟨a, b, c⟩ := gdwc_main cal st t.1 t.2 hinv
      exact ⟨a, b, c⟩

theorem displayAssemble_main (cal : Calendar) (MAXD : Int) (st1 : CacheSt)
    (year month : Int) (dp : Option LocalDate) (dates : List Nat) (fdi : Int)
    (hinv1 : CacheInv cal st1) (hdates : ∀ p ∈ dates, goodPtr st1 p) :
    CacheInv cal (displayAssemble cal MAXD st1 year month dp dates fdi).1 ∧
    (∀ k e, cacheLookup st1.cache k = some e →
      cacheLookup ((displayAssemble cal MAXD st1 year month dp dates fdi).1).cache k
        = some e) := by
  unfold displayAssemble
  dsimp only
  split
  · exact ⟨hinv1, fun _ _ h => h⟩
  · rename_i r1 hf1
    obtain ⟨hinv2, hev12, hgood2⟩ :=
      fetchAdjacent_main cal st1 (decide (fdi > 0))
        (calcPrevLocalMonth year month (cal.getMonths year)) hinv1 r1 hf1
    have hprev2 : ∀ p ∈ (r1.2).getD [], goodPtr r1.1 p := by
      cases hr : r1.2 with
      | none => simp
      | some ps =>
        intro p hp
        exact hgood2 ps hr p (by simpa [hr] using hp)
    have hinv3 := cacheInv_grayOutAll cal ((r1.2).getD []) r1.1 hinv2
      (fun p hp => (hprev2 p hp).2)
    have hlen3 := len_grayOutAll ((r1.2).getD []) r1.1.heap
    have hdates3 : ∀ p ∈ dates,
        goodPtr { r1.1 with heap := grayOutAll r1.1.heap ((r1.2).getD []) } p :=
      fun p hp => goodPtr_heapUpd r1.1 _ hlen3 p (goodPtr_mono hev12 (hdates p hp))
    have hprev3 : ∀ p ∈ (r1.2).getD [],
        goodPtr { r1.1 with heap := grayOutAll r1.1.heap ((r1.2).getD []) } p :=
      fun p hp => goodPtr_heapUpd r1.1 _ hlen3 p (hprev2 p hp)
    split
    · exact ⟨hinv3, fun k e h => hev12.keep k e h⟩
    · rename_i r2 hf2
      obtain ⟨hinv4, hev34, hgood4⟩ :=
        fetchAdjacent_main cal
          { r1.1 with heap := grayOutAll r1.1.heap ((r1.2).getD []) }
          _ (calcNextLocalMonth year month (cal.getMonths year)) hinv3 r2 hf2
      have hnext4 : ∀ p ∈ (r2.2).getD [], goodPtr r2.1 p := by
        cases hr : r2.2 with
        | none => simp
        | some ps =>
          intro p hp
          exact hgood4 ps hr p (by simpa [hr] using hp)
      have hinv5 := cacheInv_grayOutAll cal ((r2.2).getD []) r2.1 hinv4
        (fun p hp => (hnext4 p hp).2)
      have hlen5 := len_grayOutAll ((r2.2).getD []) r2.1.heap
      have hdates5 : ∀ p ∈ dates,
          goodPtr { r2.1 with heap := grayOutAll r2.1.heap ((r2.2).getD []) } p :=
        fun p hp => goodPtr_heapUpd r2.1 _ hlen5 p
          (goodPtr_mono hev34 (hdates3 p hp))
      have hprev5 : ∀ p ∈ (r1.2).getD [],
          goodPtr { r2.1 with heap := grayOutAll r2.1.heap ((r2.2).getD []) } p :=
        fun p hp => goodPtr_heapUpd r2.1 _ hlen5 p
          (goodPtr_mono hev34 (hprev3 p hp))
      have hnext5 : ∀ p ∈ (r2.2).getD [],
          goodPtr { r2.1 with heap := grayOutAll r2.1.heap ((r2.2).getD []) } p :=
        fun p hp => goodPtr_heapUpd r2.1 _ hlen5 p (hnext4 p hp)
      constructor
      · apply cacheInv_tagAll cal dp _ _ hinv5
        intro p hp
        rcases List.mem_append.1 hp with h | h
        · rcases List.mem_append.1 h with h2 | h2
          · rcases List.mem_append.1 h2 with h3 | h3
            · rcases List.mem_append.1 h3 with h4 | h4
              · exact absurd (List.eq_of_mem_replicate h4) (fun hc => Option.noConfusion hc)
              · obtain ⟨q, hq, hqe⟩ := List.mem_map.1 h4
                exact (Option.some.inj hqe) ▸ (hprev5 q hq).2
            · obtain ⟨q, hq, hqe⟩ := List.mem_map.1 h3
              exact (Option.some.inj hqe) ▸ (hdates5 q hq).2
          · obtain ⟨q, hq, hqe⟩ := List.mem_map.1 h2
            exact (Option.some.inj hqe) ▸ (hnext5 q hq).2
        · exact absurd (List.eq_of_mem_replicate h) (fun hc => Option.noConfusion hc)
      · intro k e h
        exact hev34.keep k e (hev12.keep k e h)

theorem display_main (cal : Calendar) (MAXD : Int) (st : CacheSt) (year month : Int)
    (dp : Option LocalDate) (hinv : CacheInv cal st) :
    CacheInv cal (getLocalDatesToDisplay cal MAXD st year month dp).1 ∧
    (∀ k e, cacheLookup st.cache k = some e →
      cacheLookup ((getLocalDatesToDisplay cal MAXD st year month dp).1).cache k
        = some e) := by
  unfold getLocalDatesToDisplay
  dsimp only
  obtain ⟨hi1, hev1, hgood1⟩ := gdwc_main cal st year month hinv
  cases h0 : (getDatesWithCache cal st year month).2 with
  | none => exact ⟨hi1, fun k e h => hev1.keep k e h⟩
  | some dates =>
    dsimp only
    have hdg : ∀ p ∈ dates, goodPtr (getDatesWithCache cal st year month).1 p :=
      hgood1 dates h0
    split
    · exact ⟨hi1, fun k e h => hev1.keep k e h⟩
    · rename_i fdi hfdi
      obtain ⟨ha, hb⟩ := displayAssemble_main cal MAXD
        (getDatesWithCache cal st year month).1 year month dp dates fdi hi1 hdg
      exact ⟨ha, fun k e h => hb k e (hev1.keep k e h)⟩

/-- C9: Once `_getDatesWithCache` has produced a month-grid cache entry for a
`(year, month)` key, it is immutable: (a) `_getDatesWithCache` preserves the
invariant that every cached entry equals the untouched `calendar.getDates`
result for its key; (b) `_getLocalDatesToDisplay` — despite mutating the
displayed objects with `grayOut`, `special`, `picked`, `text` and `value`
tags — preserves that invariant too, because it only ever writes to the fresh
copies, never to the cached originals; (c) every cache entry present before a
display call is still present, unchanged, after it; (d) after the display
call the cached objects of any previously cached key still read back exactly
as `getDates` originally produced them; (e) a repeated `_getDatesWithCache`
call on a cached key leaves the `getDates` call counter untouched (no
recomputation) and returns data equal to the cached originals. -/
theorem monthGridCache_immutable (cal : Calendar) (MAXD : Int) (st : CacheSt)
    (year month y2 m2 : Int) (dp : Option LocalDate)
    (hinv : CacheInv cal st) :
    CacheInv cal (getDatesWithCache cal st year month).1 ∧
    CacheInv cal (getLocalDatesToDisplay cal MAXD st year month dp).1 ∧
    (∀ k e, cacheLookup st.cache k = some e →
      cacheLookup ((getLocalDatesToDisplay cal MAXD st year month dp).1).cache k
        = some e) ∧
    (∀ ptrs, cacheLookup st.cache (y2, m2) = some (some ptrs) →
      ∃ ds, cal.getDates y2 m2 = some ds ∧
        ptrs.map ((getLocalDatesToDisplay cal MAXD st year month dp).1).heap.read
          = ds.map tagOfCal) ∧
    (∀ ptrs, cacheLookup st.cache (year, month) = some (some ptrs) →
      (getDatesWithCache cal st year month).1.gdCalls = st.gdCalls ∧
      ∃ ps, (getDatesWithCache cal st year month).2 = some ps ∧
        ps.map ((getDatesWithCache cal st year month).1).heap.read
          = ptrs.map st.heap.read) := by
  obtain ⟨ha, _, _⟩ := gdwc_main cal st year month hinv
  obtain ⟨hb, hc⟩ := display_main cal MAXD st year month dp hinv
  refine ⟨ha, hb, hc, ?_, ?_⟩
  · intro ptrs hl
    have hl' := hc (y2, m2) (some ptrs) hl
    obtain ⟨ds, hds, hreads, _⟩ := (hb y2 m2 (some ptrs) hl').2 ptrs rfl
    exact ⟨ds, hds, hreads⟩
  · intro ptrs hl
    exact gdwc_hit cal st year month ptrs hl

theorem monthGridCache_immutable_witness :
    CacheInv toyCal emptyCacheSt ∧
    (CacheInv toyCal (getDatesWithCache toyCal emptyCacheSt 2000 5).1 ∧
     CacheInv toyCal (getLocalDatesToDisplay toyCal 42 emptyCacheSt 2000 5 none).1 ∧
     (∀ k e, cacheLookup emptyCacheSt.cache k = some e →
       cacheLookup ((getLocalDatesToDisplay toyCal 42 emptyCacheSt 2000 5 none).1).cache k
         = some e) ∧
     (∀ ptrs, cacheLookup emptyCacheSt.cache (2000, 4) = some (some ptrs) →
       ∃ ds, toyCal.getDates 2000 4 = some ds ∧
         ptrs.map ((getLocalDatesToDisplay toyCal 42 emptyCacheSt 2000 5 none).1).heap.read
           = ds.map tagOfCal) ∧
     (∀ ptrs, cacheLookup emptyCacheSt.cache (2000, 5) = some (some ptrs) →
       (getDatesWithCache toyCal emptyCacheSt 2000 5).1.gdCalls = emptyCacheSt.gdCalls ∧
       ∃ ps, (getDatesWithCache toyCal emptyCacheSt 2000 5).2 = some ps ∧
         ps.map ((getDatesWithCache toyCal emptyCacheSt 2000 5).1).heap.read
           = ptrs.map emptyCacheSt.heap.read)) :=
  have hinv : CacheInv toyCal emptyCacheSt := by
    intro y m e h
    simp [cacheLookup, emptyCacheSt] at h
  ⟨hinv, monthGridCache_immutable toyCal 42 emptyCacheSt 2000 5 2000 4 none hinv⟩
